import Mathlib

/-!
Shallow embedding of the bulk Excel import engine of the ecg-creditunion
backend: the two importer variants
`MemberExcelImporter` (backend/core/apps/credit_union/services/import_service.py)
and `ExcelUserImporter` (backend/core/apps/users/utils/smart_importer.py),
together with the station/division code-generation machinery they share.

Python strings are modelled as `List Char` so that every operation of the
model is a structural, kernel-evaluable function.  Cell values coming out of
pandas are modelled as `Option (List Char)`: `none` models a NaN / absent
value, `some s` the string rendering `str(value)` of a present cell.
-/

namespace ECGImport

/-- Python strings, modelled as lists of characters. -/
abbrev Str := List Char

/-- Coerce a Lean string literal to the model representation. -/
def str (s : String) : Str := s.data

/-- Model of Python `str.strip()`: drop leading and trailing whitespace. -/
def pyStrip (l : Str) : Str :=
  ((l.dropWhile Char.isWhitespace).reverse.dropWhile Char.isWhitespace).reverse

/-- Model of Python `str.upper()` (the inputs of interest are ASCII). -/
def pyUpper (l : Str) : Str := l.map Char.toUpper

/-- Model of Python `str.lower()`, used for the case-insensitive
`name__iexact` lookups of the Django ORM. -/
def pyLower (l : Str) : Str := l.map Char.toLower

/-- Model of `re.sub(r'\s+', ' ', s)` from `ExcelUserImporter._clean_string`:
every maximal run of whitespace characters is replaced by a single space.
The boolean argument records whether the previous character was whitespace. -/
def collapseWSGo : Bool → Str → Str
  | _, [] => []
  | prevWS, c :: cs =>
    if c.isWhitespace then
      if prevWS then collapseWSGo true cs
      else ' ' :: collapseWSGo true cs
    else c :: collapseWSGo false cs

/-- Collapse whitespace runs, starting outside of a run. -/
def collapseWS (l : Str) : Str := collapseWSGo false l

/-- Model of Python `str.replace(pat, rep)` (leftmost, non-overlapping);
the fuel argument, instantiated with the length of the input, makes the
recursion structural.  All call sites use a non-empty pattern. -/
def replaceAllGo (pat rep : Str) : Nat → Str → Str
  | _, [] => []
  | 0, l => l
  | fuel + 1, c :: cs =>
    if pat.isPrefixOf (c :: cs) then
      rep ++ replaceAllGo pat rep fuel ((c :: cs).drop pat.length)
    else c :: replaceAllGo pat rep fuel cs

/-- Model of Python `str.replace(pat, rep)`. -/
def replaceAll (pat rep l : Str) : Str := replaceAllGo pat rep l.length l

/-- The last component of Python `s.split(sep)` for a one-character
separator: the suffix after the last occurrence of `sep` (the whole string
when `sep` does not occur). -/
def lastSegmentAfter (sep : Char) (l : Str) : Str :=
  (l.reverse.takeWhile (fun c => c != sep)).reverse

/-- Model of the email format test used by both importers:
`'@' in email and '.' in email.split('@')[-1]`. -/
def emailFormatOk (email : Str) : Bool :=
  email.contains '@' && (lastSegmentAfter '@' email).contains '.'

/-! Decimal rendering, for the `f"{counter:02d}"` suffixes of the
code-uniqueness probe loop. -/

/-- Decimal digits of `n`, most significant first; the fuel argument,
instantiated with `n` itself, makes the recursion structural. -/
def decDigitsGo : Nat → Nat → List Nat
  | 0, n => [n % 10]
  | fuel + 1, n => if n < 10 then [n] else decDigitsGo fuel (n / 10) ++ [n % 10]

/-- Decimal digits of `n`, most significant first, no leading zeros. -/
def decDigits (n : Nat) : List Nat := decDigitsGo n n

/-- Model of the Python format `f"{n:02d}"`: the decimal rendering of `n`,
zero-padded on the left to width at least 2. -/
def pad2 (n : Nat) : Str :=
  let ds := decDigits n
  List.replicate (2 - ds.length) '0' ++ ds.map Nat.digitChar

/-- Value of a most-significant-first digit list. -/
def digitsVal (l : List Nat) : Nat := l.foldl (fun a d => a * 10 + d) 0

/-- Value of a most-significant-first string of decimal digit characters. -/
def charsVal (l : Str) : Nat := l.foldl (fun a c => a * 10 + (c.toNat - 48)) 0

theorem digitsVal_append_singleton (l : List Nat) (d : Nat) :
    digitsVal (l ++ [d]) = digitsVal l * 10 + d := by
  simp [digitsVal, List.foldl_append]

theorem decDigitsGo_val (fuel : Nat) : ∀ n : Nat, n ≤ fuel →
    digitsVal (decDigitsGo fuel n) = n := by
  induction fuel with
  | zero =>
    intro n hn
    interval_cases n
    simp [decDigitsGo, digitsVal]
  | succ fuel ih =>
    intro n hn
    by_cases h : n < 10
    · simp [decDigitsGo, h, digitsVal]
    · have hdiv : n / 10 < n := Nat.div_lt_self (by omega) (by omega)
      have : digitsVal (decDigitsGo fuel (n / 10)) = n / 10 := ih _ (by omega)
      simp only [decDigitsGo, h, if_false, digitsVal_append_singleton, this]
      omega

theorem decDigits_val (n : Nat) : digitsVal (decDigits n) = n :=
  decDigitsGo_val n n (Nat.le_refl n)

theorem decDigitsGo_lt_ten (fuel : Nat) : ∀ n d : Nat,
    d ∈ decDigitsGo fuel n → d < 10 := by
  induction fuel with
  | zero =>
    intro n d hd
    simp only [decDigitsGo, List.mem_singleton] at hd
    omega
  | succ fuel ih =>
    intro n d hd
    by_cases h : n < 10
    · simp only [decDigitsGo, h, if_true, List.mem_singleton] at hd
      omega
    · simp only [decDigitsGo, h, if_false, List.mem_append,
        List.mem_singleton] at hd
      rcases hd with hd | hd
      · exact ih _ _ hd
      · omega

theorem decDigitsGo_ne_nil (fuel n : Nat) : decDigitsGo fuel n ≠ [] := by
  cases fuel with
  | zero => simp [decDigitsGo]
  | succ fuel =>
    by_cases h : n < 10 <;> simp [decDigitsGo, h]

theorem digitChar_val (d : Nat) (hd : d < 10) :
    (Nat.digitChar d).toNat - 48 = d := by
  interval_cases d <;> decide

theorem charsVal_map_digitChar (l : List Nat) (hl : ∀ d ∈ l, d < 10) :
    charsVal (l.map Nat.digitChar) = digitsVal l := by
  have key : ∀ (l : List Nat) (a : Nat), (∀ d ∈ l, d < 10) →
      (l.map Nat.digitChar).foldl (fun a c => a * 10 + (c.toNat - 48)) a =
        l.foldl (fun a d => a * 10 + d) a := by
    intro l
    induction l with
    | nil => intro a _; rfl
    | cons d ds ih =>
      intro a hds
      have hd : d < 10 := hds d (List.mem_cons_self d ds)
      simp only [List.map_cons, List.foldl_cons, digitChar_val d hd]
      exact ih _ (fun e he => hds e (List.mem_cons_of_mem d he))
  exact key l 0 hl

theorem charsVal_replicate_zero_append (k : Nat) (l : Str) :
    charsVal (List.replicate k '0' ++ l) = charsVal l := by
  induction k with
  | zero => rfl
  | succ k ih =>
    simpa [charsVal, List.replicate_succ] using ih

theorem pad2_val (n : Nat) : charsVal (pad2 n) = n := by
  unfold pad2
  rw [charsVal_replicate_zero_append,
    charsVal_map_digitChar (decDigits n) (fun d hd => decDigitsGo_lt_ten n n d hd),
    decDigits_val]

theorem pad2_inj {m n : Nat} (h : pad2 m = pad2 n) : m = n := by
  have := congrArg charsVal h
  rwa [pad2_val, pad2_val] at this

theorem pad2_ne_nil (n : Nat) : pad2 n ≠ [] := by
  unfold pad2 decDigits
  intro h
  rcases List.append_eq_nil.mp h with ⟨-, h2⟩
  exact decDigitsGo_ne_nil n n (by simpa using List.map_eq_nil_iff.mp h2)

/-- The k-th candidate probed by the code-uniqueness while loop of
`_get_or_create_station` / `_get_or_create_division`: the base code itself,
then `base ++ "01"`, `base ++ "02"`, and so on. -/
def candidate (base : Str) : Nat → Str
  | 0 => base
  | k + 1 => base ++ pad2 (k + 1)

theorem candidate_inj (base : Str) : ∀ {i j : Nat},
    candidate base i = candidate base j → i = j := by
  have hne : ∀ k : Nat, base ≠ base ++ pad2 (k + 1) := by
    intro k h
    have := congrArg List.length h
    rw [List.length_append] at this
    have : pad2 (k + 1) = [] := List.eq_nil_of_length_eq_zero (by omega)
    exact pad2_ne_nil _ this
  intro i j h
  match i, j with
  | 0, 0 => rfl
  | 0, j + 1 => exact absurd h (hne j)
  | i + 1, 0 => exact absurd h.symm (hne i)
  | i + 1, j + 1 =>
    have h2 : pad2 (i + 1) = pad2 (j + 1) := by
      simpa [candidate] using h
    have := pad2_inj h2
    omega

/-- Model of the while loop of `_get_or_create_station` /
`_get_or_create_division` that makes the generated code unique:
starting from candidate index `i`, return the first candidate that is not
among the used codes; the fuel argument bounds the number of iterations. -/
def probeCode (used : List Str) (base : Str) : Nat → Nat → Option Str
  | _, 0 => none
  | i, fuel + 1 =>
    if candidate base i ∈ used then probeCode used base (i + 1) fuel
    else some (candidate base i)

/-- The code the while loop settles on; fuel `used.length + 1` always
suffices, as proved in `probeCode_fuel_suffices`. -/
def uniqueCode (used : List Str) (base : Str) : Str :=
  (probeCode used base 0 (used.length + 1)).getD base

/-- Strip every character that is not a letter and uppercase: the model of
`re.sub(r'[^A-Za-z]', '', name.upper())`. -/
def stripNonLetters (name : Str) : Str := (pyUpper name).filter Char.isAlpha

/-- Derive the base code candidate of `_get_or_create_station` /
`_get_or_create_division`: the first three characters of the letters-only
uppercased name, the default when no letters remain, right-padded with `X`
to length 3. -/
def baseCode (name : Str) (defaultCode : Str) : Str :=
  let clean := stripNonLetters name
  let code := if clean.isEmpty then defaultCode else clean.take 3
  if code.length < 3 then code ++ List.replicate (3 - code.length) 'X' else code

theorem probeCode_spec (used : List Str) (base : Str) :
    ∀ (fuel i : Nat), (∃ j, i ≤ j ∧ j < i + fuel ∧ candidate base j ∉ used) →
    ∃ k, i ≤ k ∧ probeCode used base i fuel = some (candidate base k) ∧
      candidate base k ∉ used ∧ ∀ j, i ≤ j → j < k → candidate base j ∈ used := by
  intro fuel
  induction fuel with
  | zero =>
    intro i hj
    rcases hj with ⟨j, h1, h2, -⟩
    omega
  | succ fuel ih =>
    intro i hj
    by_cases hi : candidate base i ∈ used
    · have hj2 : ∃ j, i + 1 ≤ j ∧ j < (i + 1) + fuel ∧ candidate base j ∉ used := by
        rcases hj with ⟨j, h1, h2, h3⟩
        refine ⟨j, ?_, by omega, h3⟩
        rcases Nat.eq_or_lt_of_le h1 with rfl | h
        · exact absurd hi h3
        · omega
      rcases ih (i + 1) hj2 with ⟨k, hk1, hk2, hk3, hk4⟩
      refine ⟨k, by omega, ?_, hk3, ?_⟩
      · simpa [probeCode, hi] using hk2
      · intro j hij hjk
        rcases Nat.eq_or_lt_of_le hij with rfl | h
        · exact hi
        · exact hk4 j h hjk
    · exact ⟨i, Nat.le_refl i, by simp [probeCode, hi], hi, by omega⟩

theorem candidate_window_not_all_used (used : List Str) (base : Str) (i : Nat) :
    ∃ j, i ≤ j ∧ j < i + (used.length + 1) ∧ candidate base j ∉ used := by
  by_contra hall
  push_neg at hall
  set l : List Str :=
    (List.range (used.length + 1)).map (fun k => candidate base (i + k)) with hl
  have hnodup : l.Nodup := by
    refine List.Nodup.map ?_ (List.nodup_range _)
    intro a b hab
    have := candidate_inj base hab
    omega
  have hsub : ∀ x ∈ l, x ∈ used := by
    intro x hx
    rcases List.mem_map.mp hx with ⟨k, hk, rfl⟩
    have hk2 : k < used.length + 1 := List.mem_range.mp hk
    exact hall (i + k) (by omega) (by omega)
  have hcard1 : l.toFinset.card = l.length := List.toFinset_card_of_nodup hnodup
  have hcard2 : l.toFinset ⊆ used.toFinset := by
    intro x hx
    exact List.mem_toFinset.mpr (hsub x (List.mem_toFinset.mp hx))
  have hcard3 : used.toFinset.card ≤ used.length := used.toFinset_card_le
  have hlen : l.length = used.length + 1 := by simp [hl]
  have := Finset.card_le_card hcard2
  omega

/-- Fuel `used.length + 1` makes the probe succeed, and the loop result is
the first free candidate. -/
theorem probeCode_fuel_suffices (used : List Str) (base : Str) :
    ∃ k, probeCode used base 0 (used.length + 1) = some (candidate base k) ∧
      candidate base k ∉ used ∧ ∀ j < k, candidate base j ∈ used := by
  rcases probeCode_spec used base (used.length + 1) 0
      (by simpa using candidate_window_not_all_used used base 0) with
    ⟨k, -, h2, h3, h4⟩
  exact ⟨k, h2, h3, fun j hj => h4 j (Nat.zero_le j) hj⟩

theorem uniqueCode_spec (used : List Str) (base : Str) :
    ∃ k, uniqueCode used base = candidate base k ∧
      candidate base k ∉ used ∧ ∀ j < k, candidate base j ∈ used := by
  rcases probeCode_fuel_suffices used base with ⟨k, h1, h2, h3⟩
  exact ⟨k, by simp [uniqueCode, h1], h2, h3⟩

theorem uniqueCode_not_used (used : List Str) (base : Str) :
    uniqueCode used base ∉ used := by
  rcases uniqueCode_spec used base with ⟨k, h1, h2, -⟩
  rw [h1]; exact h2

/-! The data model: rows, files, directory and lookup stores. -/

/-- One uploaded data row.  `cells` maps an original column header to the
cell value; `none` models a pandas NaN / absent value, `some s` the string
rendering of a present cell.  The three `..Err` fields model the
nondeterminism of the backing store at the database touch points of row
processing that can raise: `lookupErr` a read failure of the first
staff-number store query (it escapes the row routine), `saveErr` a failure
of the member variant `user.save()` call, which sits outside the inner
try block and also escapes, and `createErr` a failure inside the
record-creation try block, which the row routine itself catches and turns
into a database Failed outcome. -/
structure Row where
  cells : Str → Option Str
  lookupErr : Option Str := none
  saveErr : Option Str := none
  createErr : Option Str := none

/-- The parsed upload: the header row and the data rows. -/
structure ExcelFile where
  headers : List Str
  rows : List Row

/-- A station record (apps/users/models.py `Station`), restricted to the
fields the importers read or write. -/
structure StationRec where
  code : Str
  name : Str
  is_active : Bool
deriving DecidableEq

/-- A division record (apps/users/models.py `Division`), restricted to the
fields the importers read or write. -/
structure DivisionRec where
  code : Str
  name : Str
  directorate : Str
  is_active : Bool
deriving DecidableEq

/-- A user record (apps/users/models.py `User`), restricted to the fields
the importers read or write; `station` and `division` hold the code of the
linked lookup entity, and the unique `staff_id` business key stands in for
the database id. -/
structure UserRec where
  staff_id : Str
  full_name : Str
  email : Option Str := none
  title : Option Str := none
  gender : Option Str := none
  date_of_birth : Option Int := none
  pb_number : Option Str := none
  directorate : Option Str := none
  station : Option Str := none
  division : Option Str := none
  phone_number : Option Str := none
  marital_status : Option Str := none
  number_of_dependents : Int := 0
  date_registered : Option Int := none
  discontinued : Bool := false
  role : Str := []
  created_by : Option Str := none
deriving DecidableEq

/-- A member record (apps/credit_union/models.py `Member`), linked to its
user by staff number; the monetary entrance fee (a float) and the dependent
wallet and savings rows are outside the scope of the claims and are not
carried in the store. -/
structure MemberRec where
  staff_id : Str
  norminee : Option Str := none
  address : Option Str := none
  witness : Option Str := none
  relationship : Option Str := none
  is_active : Bool := true
deriving DecidableEq

/-- The relational store the importers read and write. -/
structure DB where
  users : List UserRec := []
  members : List MemberRec := []
  stations : List StationRec := []
  divisions : List DivisionRec := []
deriving DecidableEq

/-- The primitive parsers and the clock, abstracted: Python `float()`
parsing, the strptime-format cascades of `_parse_date` and date rendering
are environment primitives outside the embedding; every theorem below holds
for every instantiation.  `parseDateM` and `parseDateU` are the two
variants of `_parse_date`, `parseNum` is `int(float(s))`, `parseFloatOk`
is whether `float(s)` succeeds, and `yymm` the `strftime('%y%m')` stamp of
the wallet number. -/
structure Prims where
  parseDateM : Str → Option Int
  parseDateU : Str → Option Int
  today : Int
  now : Int
  showDate : Int → Str
  parseNum : Str → Option Int
  parseFloatOk : Str → Bool
  yymm : Str

/-- Model of the header_mapping dict built by both importers: trimmed
header to original column, in column order. -/
def headerMapping (headers : List Str) : List (Str × Str) :=
  headers.map (fun c => (pyStrip c, c))

/-- Python dict lookup on the header mapping: on duplicate trimmed names
the later binding wins. -/
def lookupHeader (m : List (Str × Str)) (h : Str) : Option Str :=
  (m.reverse.find? (fun p => p.1 == h)).map Prod.snd

/-- Python dict membership `h in header_mapping`. -/
def hasHeader (m : List (Str × Str)) (h : Str) : Bool :=
  (m.find? (fun p => p.1 == h)).isSome

/-- Model of `_get_value` / `get_value` of the two row processors: look the
trimmed header up, read the cell, fall back to the default on a missing
header or a NaN cell. -/
def getValue (row : Row) (m : List (Str × Str)) (h : Str) (dflt : Option Str) :
    Option Str :=
  match lookupHeader m h with
  | some col =>
    match row.cells col with
    | some v => some v
    | none => dflt
  | none => dflt

/-- Model of `MemberExcelImporter._clean_string` on a present string:
strip surrounding whitespace. -/
def cleanStringM (s : Str) : Str := pyStrip s

/-- Model of `ExcelUserImporter._clean_string` on a present string: strip,
collapse whitespace runs, then the two literal replacements. -/
def cleanStringU (s : Str) : Str :=
  replaceAll (str "nbsp") (str " ")
    (replaceAll (str "&nbsp;") (str " ") (collapseWS (pyStrip s)))

/-- Model of `ExcelUserImporter._parse_gender`. -/
def parse_gender (value : Str) : Str :=
  let v := pyStrip (pyUpper value)
  if v = str "M" ∨ v = str "MALE" ∨ v = str "BOY" then str "MALE"
  else if v = str "F" ∨ v = str "FEMALE" ∨ v = str "GIRL" ∨ v = str "WOMAN" then
    str "FEMALE"
  else if v = str "M/F" then str "OTHER"
  else str "OTHER"

/-- Model of `ExcelUserImporter._parse_marital_status`: the status_map
lookup with default SINGLE.  Every branch returns a non-empty string, so
the result is always truthy in the caller. -/
def parse_marital_status (value : Str) : Str :=
  let v := pyStrip (pyUpper value)
  if v = str "SINGLE" ∨ v = str "S" ∨ v = str "A" then str "SINGLE"
  else if v = str "MARRIED" ∨ v = str "M" then str "MARRIED"
  else if v = str "DIVORCED" ∨ v = str "D" then str "DIVORCED"
  else if v = str "WIDOWED" ∨ v = str "W" then str "WIDOWED"
  else if v = str "SEPARATED" then str "SEPARATED"
  else str "SINGLE"

/-- Model of `ExcelUserImporter._clean_phone`. -/
def clean_phone (value : Str) : Str :=
  if value.isEmpty then []
  else
    let phone := value.filter (fun c => c.isDigit || c == '+')
    if ¬ phone.isEmpty ∧ ¬ (str "+").isPrefixOf phone then
      if (str "0").isPrefixOf phone then str "+233" ++ phone.drop 1
      else '+' :: phone
    else phone

/-- Model of `ExcelUserImporter._parse_discontinue`; the
`bool(int(float(s)))` fallback goes through the `parseNum` primitive. -/
def parse_discontinue (pr : Prims) (v : Option Str) : Bool :=
  match v with
  | none => false
  | some s =>
    let vs := pyUpper (pyStrip s)
    if vs ∈ [str "1", str "YES", str "Y", str "TRUE", str "DISCONTINUE",
        str "DISCONTINUED", str "TERMINATED"] then true
    else if vs ∈ [str "0", str "NO", str "N", str "FALSE", str "ACTIVE", str ""] then
      false
    else
      match pr.parseNum vs with
      | some n => n != 0
      | none => false

/-- Model of `_get_or_create_station`; the logic is textually identical in
the two sources (services/import_service.py lines 203-236 and
utils/smart_importer.py lines 546-578; the extra leading empty-name guard
of the member variant is enforced by its call site as well).  Performs the
case-insensitive `name__iexact` lookup, and otherwise creates the station
with a generated unique code, appending it to the store. -/
def getOrCreateStation (db : DB) (stationName : Str) :
    (StationRec × Bool) × DB :=
  match db.stations.find? (fun s => pyLower s.name == pyLower stationName) with
  | some s => ((s, false), db)
  | none =>
    let code := uniqueCode (db.stations.map StationRec.code)
      (baseCode stationName (str "STN"))
    let s : StationRec := { code := code, name := stationName, is_active := true }
    ((s, true), { db with stations := db.stations ++ [s] })

/-- Model of `_get_or_create_division`, textually identical in the two
sources up to the default directorate handling
(`directorate or ''` and `directorate if directorate else ''`, which agree
with `Option.getD` on the optional directorate since an empty string maps
to an empty string). -/
def getOrCreateDivision (db : DB) (divisionName : Str)
    (directorate : Option Str) : (DivisionRec × Bool) × DB :=
  match db.divisions.find? (fun d => pyLower d.name == pyLower divisionName) with
  | some d => ((d, false), db)
  | none =>
    let code := uniqueCode (db.divisions.map DivisionRec.code)
      (baseCode divisionName (str "DIV"))
    let d : DivisionRec :=
      { code := code, name := divisionName,
        directorate := directorate.getD [], is_active := true }
    ((d, true), { db with divisions := db.divisions ++ [d] })

/-- The dictionary a row processor returns.  The generated uuid fields
(member_id, user_id, employee_id) are not modelled; the fields a claim
touches are all present.  Unused fields keep their defaults on each return
path exactly when the source omits the key. -/
structure RowResult where
  status : Str
  error : Str := []
  field_errors : List (Str × Str) := []
  reason : Str := []
  warnings : List Str := []
  staff_id : Str := []
  full_name : Str := []
  email : Str := []
  wallet_number : Str := []
  station_name : Str := []
  station_created : Bool := false
  division_name : Str := []
  division_created : Bool := false
deriving DecidableEq

namespace MemberExcelImporter

/-- The REQUIRED_HEADERS constant of `MemberExcelImporter`. -/
def REQUIRED_HEADERS : List Str := [str "Staff #"]

/-- The cleaned Station cell of a member row (the station_name variable of
line 313). -/
def stationNameOf (row : Row) (m : List (Str × Str)) : Str :=
  cleanStringM ((getValue row m (str "Station") (some [])).getD [])

/-- The cleaned Division cell of a member row (the division_name variable
of line 325). -/
def divisionNameOf (row : Row) (m : List (Str × Str)) : Str :=
  cleanStringM ((getValue row m (str "Division") (some [])).getD [])

/-- The cleaned Email cell of a member row (the email variable of
line 339). -/
def emailOf (row : Row) (m : List (Str × Str)) : Str :=
  cleanStringM ((getValue row m (str "Email") (some [])).getD [])

/-- Step 4 of `_process_member_row` (services/import_service.py lines
312-318): the station branch; an empty name is skipped, otherwise
get-or-create runs. -/
def stationBranch (db : DB) (station_name : Str) :
    Option StationRec × Bool × DB :=
  if station_name.isEmpty then (none, false, db)
  else
    let ((st, c), db1) := getOrCreateStation db station_name
    (some st, c, db1)

/-- The warnings appended by step 4 (lines 318-322): the created warning,
then the user-update warning whenever a station was resolved. -/
def stationWarnings (station_name : Str) (stationOpt : Option StationRec)
    (created : Bool) : List Str :=
  (if created then [str "Created new station: \"" ++ station_name ++ str "\""]
   else []) ++
  (match stationOpt with
   | some _ => [str "Updated user station to: \"" ++ station_name ++ str "\""]
   | none => [])

/-- The in-memory user update of step 4 (line 321). -/
def stationUpdate (user : UserRec) (stationOpt : Option StationRec) : UserRec :=
  match stationOpt with
  | some st => { user with station := some st.code }
  | none => user

/-- Step 5 (lines 324-330): the division branch, reading the directorate
column inside the non-empty case. -/
def divisionBranch (db : DB) (row : Row) (m : List (Str × Str))
    (division_name : Str) : Option DivisionRec × Bool × DB :=
  if division_name.isEmpty then (none, false, db)
  else
    let directorate :=
      cleanStringM ((getValue row m (str "Directorate") (some [])).getD [])
    let ((dv, c), db1) := getOrCreateDivision db division_name (some directorate)
    (some dv, c, db1)

/-- The warnings appended by step 5 (lines 331-336). -/
def divisionWarnings (division_name : Str) (divisionOpt : Option DivisionRec)
    (created : Bool) : List Str :=
  (if created then [str "Created new division: \"" ++ division_name ++ str "\""]
   else []) ++
  (match divisionOpt with
   | some _ => [str "Updated user division to: \"" ++ division_name ++ str "\""]
   | none => [])

/-- The in-memory user update of step 5 (lines 334-335). -/
def divisionUpdate (user : UserRec) (divisionOpt : Option DivisionRec) : UserRec :=
  match divisionOpt with
  | some dv =>
    { user with
      division := some dv.code,
      directorate := some dv.directorate }
  | none => user

/-- Step 6 (lines 338-348): the email update branch.  The source excludes
the user itself from the collision query by database id; the unique staff
number of the threaded record stands in for the id. -/
def emailBranch (db : DB) (user2 : UserRec) (email : Str) : UserRec × List Str :=
  if email.isEmpty then (user2, [])
  else if emailFormatOk email then
    if db.users.any (fun u =>
        u.email == some email && u.staff_id != user2.staff_id) then
      (user2, [str "Email \"" ++ email ++
        str "\" already exists for another user. Skipping email update."])
    else
      ({ user2 with email := some email },
       [str "Updated user email to: \"" ++ email ++ str "\""])
  else
    (user2, [str "Invalid email format: \"" ++ email ++
      str "\". Skipping email update."])

/-- Step 7 (line 351), `user.save()`: persist the updated record in place
of every record carrying its staff number. -/
def saveUser (db : DB) (key : Str) (u : UserRec) : DB :=
  { db with users := db.users.map (fun v => if v.staff_id == key then u else v) }

/-- The entrance-fee warning of step 8 (lines 356-364): a present, truthy,
unparseable value warns and falls back to zero. -/
def feeWarnings (pr : Prims) (row : Row) (m : List (Str × Str)) : List Str :=
  match getValue row m (str "Entrance Fee") none with
  | none => []
  | some s =>
    if s.isEmpty then []
    else if pr.parseFloatOk s then []
    else [str "Invalid entrance fee value: \"" ++ s ++ str "\". Using 0."]

/-- The joined-date warning of step 8 (lines 372-375). -/
def joinedWarnings (pr : Prims) (row : Row) (m : List (Str × Str)) : List Str :=
  match (getValue row m (str "Joined Date") none).bind pr.parseDateM with
  | some _ => []
  | none => [str "Joined Date not provided. Using current date."]

/-- The member record created at line 378; empty cleaned strings persist
as null fields. -/
def newMemberRec (row : Row) (m : List (Str × Str)) (user3 : UserRec) : MemberRec :=
  let norminee := cleanStringM ((getValue row m (str "Nominee") (some [])).getD [])
  let address := cleanStringM ((getValue row m (str "Address") (some [])).getD [])
  let witness := cleanStringM ((getValue row m (str "Witness") (some [])).getD [])
  let relationship :=
    cleanStringM ((getValue row m (str "Relationship") (some [])).getD [])
  { staff_id := user3.staff_id,
    norminee := if norminee.isEmpty then none else some norminee,
    address := if address.isEmpty then none else some address,
    witness := if witness.isEmpty then none else some witness,
    relationship := if relationship.isEmpty then none else some relationship,
    is_active := true }

/-- Model of `MemberExcelImporter._process_member_row`
(services/import_service.py lines 272-428).  Returns the result dictionary,
or on the left the exception escaping the routine, together with the
updated store.  The station/division resolution failure path (caught inside
`_get_or_create_station`) and the generated uuid and monetary fields are
not modelled; `createErr` models the first creation of the
member/wallet/savings try block raising, `saveErr` the `user.save()` call
(outside the inner try block) raising, and `lookupErr` the staff-number
store read raising. -/
def process_member_row (pr : Prims) (db : DB) (row : Row)
    (m : List (Str × Str)) : Except Str RowResult × DB :=
  match getValue row m (str "Staff #") none with
  | none =>
    (.ok { status := str "failed", error := str "Staff # is required",
           field_errors := [(str "Staff #", str "Required field is empty")] }, db)
  | some staffRaw =>
    let staff_id := cleanStringM staffRaw
    if staff_id.isEmpty then
      (.ok { status := str "failed", error := str "Staff # is empty",
             field_errors := [(str "Staff #", str "Field is empty")] }, db)
    else
      match row.lookupErr with
      | some e => (.error e, db)
      | none =>
        match db.users.find? (fun u => u.staff_id == staff_id) with
        | none =>
          (.ok { status := str "skipped",
                 reason := str "User with Staff # \"" ++ staff_id ++
                   str "\" not found in system" }, db)
        | some user =>
          if db.members.any (fun mr => mr.staff_id == staff_id) then
            (.ok { status := str "skipped",
                   reason := str "User " ++ user.full_name ++ str " (" ++
                     staff_id ++ str ") is already a member" }, db)
          else
            let station_name := stationNameOf row m
            let (stationOpt, station_created, db1) := stationBranch db station_name
            let user1 := stationUpdate user stationOpt
            let division_name := divisionNameOf row m
            let (divisionOpt, division_created, db2) :=
              divisionBranch db1 row m division_name
            let user2 := divisionUpdate user1 divisionOpt
            let email := emailOf row m
            let (user3, emailWarns) := emailBranch db2 user2 email
            let warningsE :=
              stationWarnings station_name stationOpt station_created ++
              divisionWarnings division_name divisionOpt division_created ++
              emailWarns
            match row.saveErr with
            | some e => (.error e, db2)
            | none =>
              let db3 := saveUser db2 user.staff_id user3
              match row.createErr with
              | some e =>
                (.ok { status := str "failed",
                       error := str "Database error: " ++ e,
                       field_errors := [(str "database", e)] }, db3)
              | none =>
                let warningsAll :=
                  warningsE ++ feeWarnings pr row m ++ joinedWarnings pr row m
                let db4 :=
                  { db3 with members := db3.members ++ [newMemberRec row m user3] }
                (.ok { status := str "success",
                       staff_id := user3.staff_id,
                       full_name := user3.full_name,
                       email := user3.email.getD [],
                       wallet_number := str "CH" ++ user3.staff_id ++ pr.yymm,
                       station_name := station_name,
                       station_created := station_created,
                       division_name := division_name,
                       division_created := division_created,
                       warnings := warningsAll }, db4)

end MemberExcelImporter

namespace ExcelUserImporter

/-- The required_headers list of `ExcelUserImporter.import_users`. -/
def required_headers : List Str := [str "Staff #", str "Name"]

/-- The email branch of `_process_row_exact_headers`
(utils/smart_importer.py lines 217-237): a present, truthy value must be
well-formed and unused, otherwise it is dropped with a warning. -/
def emailBranch (db : DB) (row : Row) (m : List (Str × Str)) :
    Option Str × List Str :=
  match getValue row m (str "Email") none with
  | none => (none, [])
  | some eraw =>
    let e := cleanStringU eraw
    if e.isEmpty then (none, [])
    else if emailFormatOk e then
      if db.users.any (fun u => u.email == some e) then
        (none, [str "Email \"" ++ e ++
          str "\" already exists for another user. Email field will be left blank."])
      else (some e, [])
    else
      (none, [str "Invalid email format: \"" ++ e ++
        str "\". Email field will be left blank."])

/-- The Emp ID note of lines 239-243. -/
def empWarnings (row : Row) (m : List (Str × Str)) : List Str :=
  match getValue row m (str "Emp ID") none with
  | none => []
  | some r0 =>
    let emp := cleanStringU r0
    if emp.isEmpty then [] else [str "Emp ID \"" ++ emp ++ str "\" noted"]

/-- The Title field of lines 245-249. -/
def titleValue (row : Row) (m : List (Str × Str)) : Option Str :=
  match getValue row m (str "Title") none with
  | none => none
  | some r0 =>
    let t := cleanStringU r0
    if t.isEmpty then none else some t

/-- The Sex field of lines 251-255. -/
def genderValue (row : Row) (m : List (Str × Str)) : Option Str :=
  match getValue row m (str "Sex") none with
  | none => none
  | some r0 =>
    let sx := cleanStringU r0
    if sx.isEmpty then none else some (parse_gender sx)

/-- The DOB branch of lines 257-266: future dates are rejected to null with
a warning, unparseable values warn. -/
def dobBranch (pr : Prims) (row : Row) (m : List (Str × Str)) :
    Option Int × List Str :=
  match getValue row m (str "DOB") none with
  | none => (none, [])
  | some r0 =>
    match pr.parseDateU r0 with
    | some d =>
      if pr.today < d then
        (none, [str "DOB " ++ pr.showDate d ++
          str " is in the future. Setting to None."])
      else (some d, [])
    | none => (none, [str "DOB could not be parsed"])

/-- The Station branch of lines 268-281: get-or-create on a present,
non-empty name; a created station warns.  The resolver failure branch
(warning could-not-create) is unreachable in the model, where station
creation does not fail. -/
def stationBranch (db : DB) (row : Row) (m : List (Str × Str)) :
    Option Str × Str × Bool × List Str × DB :=
  match getValue row m (str "Station") none with
  | none => (none, [], false, [], db)
  | some r0 =>
    let sn := cleanStringU r0
    if sn.isEmpty then (none, [], false, [], db)
    else
      let ((st, c), db1) := getOrCreateStation db sn
      (some st.code, sn, c,
       if c then [str "Created new station: \"" ++ sn ++ str "\""] else [],
       db1)

/-- The PB # field of lines 283-287. -/
def pbValue (row : Row) (m : List (Str × Str)) : Option Str :=
  match getValue row m (str "PB #") none with
  | none => none
  | some r0 =>
    let pb := cleanStringU r0
    if pb.isEmpty then none else some pb

/-- The directorate variable of lines 289-292 (None when the column is
absent, the cleaned string otherwise). -/
def directorateRaw (row : Row) (m : List (Str × Str)) : Option Str :=
  match getValue row m (str "Directorate") none with
  | none => none
  | some r0 => some (cleanStringU r0)

/-- The directorate data entry of lines 293-294 (only a truthy cleaned
value is stored). -/
def directorateValue (row : Row) (m : List (Str × Str)) : Option Str :=
  match directorateRaw row m with
  | some d => if d.isEmpty then none else some d
  | none => none

/-- The Division branch of lines 296-309, passing the directorate
variable through to the resolver. -/
def divisionBranch (db : DB) (row : Row) (m : List (Str × Str)) :
    Option Str × Str × Bool × List Str × DB :=
  match getValue row m (str "Division") none with
  | none => (none, [], false, [], db)
  | some r0 =>
    let dn := cleanStringU r0
    if dn.isEmpty then (none, [], false, [], db)
    else
      let ((dv, c), db1) := getOrCreateDivision db dn (directorateRaw row m)
      (some dv.code, dn, c,
       if c then [str "Created new division: \"" ++ dn ++ str "\""] else [],
       db1)

/-- The Tel branch of lines 311-320. -/
def telBranch (row : Row) (m : List (Str × Str)) : Option Str × List Str :=
  match getValue row m (str "Tel") none with
  | none => (none, [])
  | some r0 =>
    let tel := cleanStringU r0
    if tel.isEmpty then (none, [])
    else
      let cleaned := clean_phone tel
      if cleaned.isEmpty then
        (none, [str "Invalid phone number: \"" ++ tel ++ str "\""])
      else (some cleaned, [])

/-- The Marital Status branch of lines 322-330; the warning alternative is
reachable only if the parser returns a falsy value, which
`parse_marital_status` never does (see `parse_marital_status_ne_nil`). -/
def maritalBranch (row : Row) (m : List (Str × Str)) : Option Str × List Str :=
  match getValue row m (str "Marital Status") none with
  | none => (none, [])
  | some r0 =>
    let mar := cleanStringU r0
    if mar.isEmpty then (none, [])
    else
      let parsed := parse_marital_status mar
      if parsed.isEmpty then
        (none, [str "Invalid marital status: \"" ++ mar ++
          str "\". Using default (SINGLE)."])
      else (some parsed, [])

/-- The dependents branch of lines 332-341, clamped below at zero. -/
def dependentsBranch (pr : Prims) (row : Row) (m : List (Str × Str)) :
    Int × List Str :=
  match getValue row m (str "# of Dependents") none with
  | none => (0, [])
  | some r0 =>
    match pr.parseNum r0 with
    | some n => (max 0 n, [])
    | none =>
      (0, [str "Invalid dependents value: \"" ++ r0 ++ str "\". Setting to 0."])

/-- The registration-date branch of lines 343-355. -/
def regBranch (pr : Prims) (row : Row) (m : List (Str × Str)) :
    Option Int × List Str :=
  match getValue row m (str "Date of Registration") none with
  | none => (some pr.now, [])
  | some r0 =>
    match pr.parseDateU r0 with
    | some d => (some d, [])
    | none =>
      (some pr.now,
       [str "Date of Registration could not be parsed. Using current date."])

/-- The unconditional default-role warning of line 366. -/
def roleWarning : List Str :=
  [str "Role not provided, defaulting to STAFF. Please review and update if necessary."]

/-- Model of `ExcelUserImporter._process_row_exact_headers`
(utils/smart_importer.py lines 159-415).  Returns the result dictionary,
or on the left the exception escaping the routine, together with the
updated store.  `lookupErr` models the duplicate-check store read raising,
`createErr` the user / account-meta creation inside the try block raising;
the generated uuid, employee id and password fields are not modelled. -/
def process_row_exact_headers (pr : Prims) (adminEmail : Str) (db : DB)
    (row : Row) (m : List (Str × Str)) : Except Str RowResult × DB :=
  match getValue row m (str "Staff #") none with
  | none =>
    (.ok { status := str "failed", error := str "Staff # is required",
           field_errors := [(str "Staff #", str "Required field is empty")] }, db)
  | some staffRaw =>
    let staff_number := cleanStringU staffRaw
    if staff_number.isEmpty then
      (.ok { status := str "failed", error := str "Staff # is empty",
             field_errors := [(str "Staff #", str "Field is empty")] }, db)
    else
      match row.lookupErr with
      | some e => (.error e, db)
      | none =>
        if db.users.any (fun u => u.staff_id == staff_number) then
          (.ok { status := str "skipped",
                 reason := str "Staff # \"" ++ staff_number ++
                   str "\" already exists in system" }, db)
        else
          match getValue row m (str "Name") none with
          | none =>
            (.ok { status := str "failed", error := str "Name is required",
                   field_errors := [(str "Name", str "Required field is empty")] }, db)
          | some nameRaw =>
            let name := cleanStringU nameRaw
            if name.isEmpty then
              (.ok { status := str "failed", error := str "Name is empty",
                     field_errors := [(str "Name", str "Field is empty")] }, db)
            else
              let (emailOpt, warnsEmail) := emailBranch db row m
              let (dobOpt, warnsDob) := dobBranch pr row m
              let (stationCodeOpt, station_name, station_created,
                warnsStation, db1) := stationBranch db row m
              let (divisionCodeOpt, division_name, division_created,
                warnsDivision, db2) := divisionBranch db1 row m
              let (phoneOpt, warnsTel) := telBranch row m
              let (maritalOpt, warnsMarital) := maritalBranch row m
              let (dependents, warnsDependents) := dependentsBranch pr row m
              let (dateRegistered, warnsReg) := regBranch pr row m
              let warnings := warnsEmail ++ empWarnings row m ++ warnsDob ++
                warnsStation ++ warnsDivision ++ warnsTel ++ warnsMarital ++
                warnsDependents ++ warnsReg ++ roleWarning
              match row.createErr with
              | some e =>
                (.ok { status := str "failed",
                       error := str "Database error: " ++ e,
                       field_errors := [(str "database", e)] }, db2)
              | none =>
                let user : UserRec :=
                  { staff_id := staff_number, full_name := name,
                    email := emailOpt, title := titleValue row m,
                    gender := genderValue row m, date_of_birth := dobOpt,
                    pb_number := pbValue row m,
                    directorate := directorateValue row m,
                    station := stationCodeOpt, division := divisionCodeOpt,
                    phone_number := phoneOpt, marital_status := maritalOpt,
                    number_of_dependents := dependents,
                    date_registered := dateRegistered,
                    discontinued :=
                      parse_discontinue pr (getValue row m (str "Discontinue") none),
                    role := str "STAFF",
                    created_by := some adminEmail }
                let db3 := { db2 with users := db2.users ++ [user] }
                (.ok { status := str "success", staff_id := user.staff_id,
                       full_name := user.full_name,
                       email := user.email.getD [],
                       station_name := station_name,
                       station_created := station_created,
                       division_name := division_name,
                       division_created := division_created,
                       warnings := warnings }, db3)

end ExcelUserImporter

/-! Batch orchestration and report assembly, shared in shape by the
two import drivers. -/

/-- Model of `_clean_row_data` / `_clean_row_data_for_json`: the cleaned
original row, one entry per mapped header, `none` for a NaN cell. -/
def clean_row_data (row : Row) (m : List (Str × Str)) : List (Str × Option Str) :=
  m.map (fun p => (p.1, row.cells p.2))

/-- A successful-row entry of the report; the two variants populate the
fields they report (the member variant the wallet number, the full-user
variant email/station/division), generated uuids are not modelled. -/
structure CreatedEntry where
  row : Nat
  staff_id : Str
  full_name : Str
  email : Str := []
  wallet_number : Str := []
  station : Str := []
  division : Str := []
  warnings : List Str := []
deriving DecidableEq

/-- A failed-row entry of the report. -/
structure FailedEntry where
  row : Nat
  error : Str
  data : List (Str × Option Str)
  field_errors : List (Str × Str)
deriving DecidableEq

/-- A skipped-row entry of the report. -/
structure SkippedEntry where
  row : Nat
  reason : Str
  data : List (Str × Option Str)
deriving DecidableEq

/-- Model of the Python set-`add` on the created station/division name
sets (iteration order of `list(set)` is not otherwise observable). -/
def addSet (x : Str) (s : List Str) : List Str := if x ∈ s then s else x :: s

/-- The per-row results of the loop body, in row order, each with its
1-based row number offset by the header row (`index + 2`), threading the
store through the rows.  The Python loop interleaves row processing with
report building, but the report lists never influence processing, so the
embedding first computes this trace and then folds it into the report. -/
def runRows (proc : DB → Row → Except Str RowResult × DB) :
    Nat → DB → List Row → List (Nat × Row × Except Str RowResult) × DB
  | _, db, [] => ([], db)
  | idx, db, r :: rs =>
    ((idx + 2, r, (proc db r).1) ::
       (runRows proc (idx + 1) (proc db r).2 rs).1,
     (runRows proc (idx + 1) (proc db r).2 rs).2)

/-- The report lists accumulated by the loop. -/
structure Buckets where
  created : List CreatedEntry := []
  failedRows : List FailedEntry := []
  skippedRows : List SkippedEntry := []
  allWarnings : List Str := []
  stationsCreated : List Str := []
  divisionsCreated : List Str := []
deriving DecidableEq

/-- Model of the dispatch in the body of the row loop of both import
drivers: a caught unexpected exception appends a Failed entry with the
prefixed message; otherwise the result status selects the bucket through
the if/elif chain, whose (unreachable, see `RowResult_status_trichotomy`
below) fall-through appends nothing.  `mk` builds the variant-specific
successful entry. -/
def buckets (mk : Nat → RowResult → CreatedEntry) (m : List (Str × Str)) :
    List (Nat × Row × Except Str RowResult) → Buckets
  | [] => {}
  | (n, row, res) :: rest =>
    let b := buckets mk m rest
    match res with
    | .error e =>
      { b with failedRows :=
          { row := n, error := str "Unexpected error: " ++ e,
            data := clean_row_data row m, field_errors := [] } :: b.failedRows }
    | .ok r =>
      if r.status = str "success" then
        { b with
          created := mk n r :: b.created,
          allWarnings := r.warnings ++ b.allWarnings,
          stationsCreated :=
            if r.station_created then addSet r.station_name b.stationsCreated
            else b.stationsCreated,
          divisionsCreated :=
            if r.division_created then addSet r.division_name b.divisionsCreated
            else b.divisionsCreated }
      else if r.status = str "failed" then
        { b with failedRows :=
            { row := n, error := r.error, data := clean_row_data row m,
              field_errors := r.field_errors } :: b.failedRows }
      else if r.status = str "skipped" then
        { b with skippedRows :=
            { row := n, reason := r.reason,
              data := clean_row_data row m } :: b.skippedRows }
      else b

/-- The summary block of the report; the float success rate, the timestamp
and the member-variant default interest rate are not modelled. -/
structure Summary where
  total_rows : Nat
  total_processed : Nat
  successful : Nat
  failed : Nat
  skipped : Nat
  stations_created : List Str
  divisions_created : List Str
  imported_by : Str
deriving DecidableEq

/-- The import report returned by both drivers. -/
structure ImportReport where
  summary : Summary
  successful : List CreatedEntry
  failedRows : List FailedEntry
  skippedRows : List SkippedEntry
  warnings : List Str
deriving DecidableEq

/-- Comma-space join, model of `', '.join(missing_headers)`. -/
def joinCommaSpace : List Str → Str
  | [] => []
  | [x] => x
  | x :: xs => x ++ str ", " ++ joinCommaSpace xs

/-- Assemble the report from the buckets (shared shape of the two
drivers). -/
def mkReport (totalRows : Nat) (adminEmail : Str) (b : Buckets) : ImportReport :=
  { summary :=
      { total_rows := totalRows,
        total_processed :=
          b.created.length + b.failedRows.length + b.skippedRows.length,
        successful := b.created.length,
        failed := b.failedRows.length,
        skipped := b.skippedRows.length,
        stations_created := b.stationsCreated,
        divisions_created := b.divisionsCreated,
        imported_by := adminEmail },
    successful := b.created,
    failedRows := b.failedRows,
    skippedRows := b.skippedRows,
    warnings := b.allWarnings }

/-- Where the `with transaction.atomic()` block sits relative to the row
loop. -/
inductive TxnScope
  | batchLevel
  | perRow
deriving DecidableEq

namespace MemberExcelImporter

/-- The successful-row entry built at services/import_service.py
lines 71-79. -/
def mkCreated (n : Nat) (r : RowResult) : CreatedEntry :=
  { row := n, staff_id := r.staff_id, full_name := r.full_name,
    wallet_number := r.wallet_number, warnings := r.warnings }

/-- Model of `MemberExcelImporter.import_members`
(services/import_service.py lines 27-139): header mapping and required
header check, then the row loop, then the report.  The error result models
the raised ValueError naming the missing headers. -/
def import_members (pr : Prims) (file : ExcelFile) (adminEmail : Str)
    (db : DB) : Except Str (ImportReport × DB) :=
  let m := headerMapping file.headers
  let missing := REQUIRED_HEADERS.filter (fun h => !(hasHeader m h))
  if missing.isEmpty then
    .ok (mkReport file.rows.length adminEmail
          (buckets mkCreated m
            (runRows (fun db row => process_member_row pr db row m) 0 db file.rows).1),
        (runRows (fun db row => process_member_row pr db row m) 0 db file.rows).2)
  else
    .error (str "Missing required headers: " ++ joinCommaSpace missing)

/-- The `with transaction.atomic()` of services/import_service.py line 63
encloses the whole row loop: one batch-level transaction. -/
def txnScope : TxnScope := TxnScope.batchLevel

end MemberExcelImporter

namespace ExcelUserImporter

/-- The successful-row entry built at utils/smart_importer.py
lines 65-75. -/
def mkCreated (n : Nat) (r : RowResult) : CreatedEntry :=
  { row := n, staff_id := r.staff_id, full_name := r.full_name,
    email := r.email, station := r.station_name, division := r.division_name,
    warnings := r.warnings }

/-- Model of `ExcelUserImporter.import_users`
(utils/smart_importer.py lines 19-138): header mapping and required header
check, then the row loop, then the report. -/
def import_users (pr : Prims) (file : ExcelFile) (adminEmail : Str)
    (db : DB) : Except Str (ImportReport × DB) :=
  let m := headerMapping file.headers
  let missing := required_headers.filter (fun h => !(hasHeader m h))
  if missing.isEmpty then
    .ok (mkReport file.rows.length adminEmail
          (buckets mkCreated m
            (runRows (fun db row => process_row_exact_headers pr adminEmail db row m)
              0 db file.rows).1),
        (runRows (fun db row => process_row_exact_headers pr adminEmail db row m)
          0 db file.rows).2)
  else
    .error (str "Missing required headers: " ++ joinCommaSpace missing)

/-- The `with transaction.atomic()` of utils/smart_importer.py line 56
encloses the whole row loop (and even the summary construction): one
batch-level transaction, the same scope as the member variant. -/
def txnScope : TxnScope := TxnScope.batchLevel

end ExcelUserImporter

deriving instance DecidableEq for Except

/-! Concrete fixtures used by the witnesses and the counterexamples. -/

/-- A concrete primitive environment for the concrete runs: no numeric or
date value parses and the clock is fixed. -/
def testPrims : Prims :=
  { parseDateM := fun _ => none, parseDateU := fun _ => none,
    today := 0, now := 0, showDate := fun _ => [],
    parseNum := fun _ => none, parseFloatOk := fun _ => false,
    yymm := str "2605" }

/-- A data row populated by staff number and name only. -/
def mkRow2 (sid nm : Option String) : Row :=
  { cells := fun h =>
      if h = str "Staff #" then sid.map str
      else if h = str "Name" then nm.map str
      else none }

/-- The five-row end-to-end file: row 2 has a blank staff number and row 4
repeats the staff number of row 1. -/
def file5 : ExcelFile :=
  { headers := [str "Staff #", str "Name"],
    rows := [mkRow2 (some "S1") (some "Kofi"),
             mkRow2 (some "  ") (some "Abena"),
             mkRow2 (some "S3") (some "Ama"),
             mkRow2 (some "S1") (some "Yaw"),
             mkRow2 (some "S5") (some "Esi")] }

/-- The member-variant run of the five-row file against a directory that
already contains the three staff numbers, projected out of the result. -/
def dbThree : DB :=
  { users := [{ staff_id := str "S1", full_name := str "Kofi" },
              { staff_id := str "S3", full_name := str "Ama" },
              { staff_id := str "S5", full_name := str "Esi" }] }

/-- The member run of `file5` against `dbThree`. -/
def memberRun5 : ImportReport × DB :=
  match MemberExcelImporter.import_members testPrims file5 (str "boss") dbThree with
  | .ok p => p
  | .error _ => (mkReport 0 [] {}, {})

/-- The full-user run of `file5` against the empty directory. -/
def userRun5 : ImportReport × DB :=
  match ExcelUserImporter.import_users testPrims file5 (str "boss") {} with
  | .ok p => p
  | .error _ => (mkReport 0 [] {}, {})

/-- The empty store. -/
def dbEmpty : DB := { users := [], members := [], stations := [], divisions := [] }

/-- A file whose header row lacks the required Staff # column. -/
def fileNoStaff : ExcelFile :=
  { headers := [str "Name", str "Station"],
    rows := [mkRow2 none (some "Kofi")] }

/-- A member row whose `user.save()` raises. -/
def rowSaveErr : Row :=
  { cells := fun h => if h = str "Staff #" then some (str "S1") else none,
    saveErr := some (str "boom") }

/-- A full-user row whose duplicate-check store read raises. -/
def rowLookupErr : Row :=
  { cells := fun h =>
      if h = str "Staff #" then some (str "S9")
      else if h = str "Name" then some (str "Ama") else none,
    lookupErr := some (str "db down") }

/-- The header mapping of the two-column Staff-and-Name file. -/
def m2 : List (Str × Str) := headerMapping [str "Staff #", str "Name"]

/-- The member row procedure over `m2` with the test primitives. -/
def memProc : DB → Row → Except Str RowResult × DB :=
  fun db row => MemberExcelImporter.process_member_row testPrims db row m2

/-- The full-user row procedure over `m2` with the test primitives. -/
def userProc : DB → Row → Except Str RowResult × DB :=
  fun db row =>
    ExcelUserImporter.process_row_exact_headers testPrims (str "boss") db row m2

/-- A row whose staff cell is whitespace only. -/
def rowBlankStaff : Row := mkRow2 (some "   ") (some "Abena")

/-- A row with no staff cell at all. -/
def rowNoStaff : Row := mkRow2 none (some "Abena")

/-- A directory with one user S1 that already carries an email. -/
def dbMemEmail : DB :=
  { users := [{ staff_id := str "S1", full_name := str "Kofi",
                email := some (str "old@x.com") }],
    members := [], stations := [], divisions := [] }

/-- A member row for S1 with a malformed email cell. -/
def rowBadEmail : Row :=
  { cells := fun h =>
      if h = str "Staff #" then some (str "S1")
      else if h = str "Email" then some (str "bad-email")
      else none }

/-- The Staff-and-Email header mapping. -/
def mStaffEmail : List (Str × Str) := headerMapping [str "Staff #", str "Email"]

/-- A full-user row with a malformed email cell. -/
def rowBadEmailU : Row :=
  { cells := fun h =>
      if h = str "Staff #" then some (str "S7")
      else if h = str "Name" then some (str "Adjoa")
      else if h = str "Email" then some (str "bad-email")
      else none }

/-- The Staff-Name-Email header mapping. -/
def m3 : List (Str × Str) :=
  headerMapping [str "Staff #", str "Name", str "Email"]

/-- A full-user row carrying unrecognized Sex and Marital Status values. -/
def rowUnrecognized : Row :=
  { cells := fun h =>
      if h = str "Staff #" then some (str "S9")
      else if h = str "Name" then some (str "Ama")
      else if h = str "Sex" then some (str "X")
      else if h = str "Marital Status" then some (str "Z")
      else none }

/-- The Staff-Name-Sex-Marital header mapping. -/
def mSexMarital : List (Str × Str) :=
  headerMapping [str "Staff #", str "Name", str "Sex", str "Marital Status"]

/-! Infrastructure lemmas about the row processors, the row loop and the
report assembly. -/

/-- The three statuses a row-result dictionary can carry. -/
def statusOk3 (r : RowResult) : Prop :=
  r.status = str "success" ∨ r.status = str "failed" ∨ r.status = str "skipped"

set_option maxHeartbeats 1000000 in
theorem member_status_cases (pr : Prims) (db : DB) (row : Row)
    (m : List (Str × Str)) (r : RowResult) (db2 : DB)
    (h : MemberExcelImporter.process_member_row pr db row m = (.ok r, db2)) :
    statusOk3 r := by
  unfold statusOk3
  unfold MemberExcelImporter.process_member_row at h
  simp only [] at h
  repeat' split at h
  all_goals try (injection h with h1 h2)
  all_goals (first
    | exact (Except.noConfusion h1)
    | (injection h1 with h3; rw [← h3]; exact Or.inl rfl)
    | (injection h1 with h3; rw [← h3]; exact Or.inr (Or.inl rfl))
    | (injection h1 with h3; rw [← h3]; exact Or.inr (Or.inr rfl)))

set_option maxHeartbeats 1000000 in
theorem user_status_cases (pr : Prims) (a : Str) (db : DB) (row : Row)
    (m : List (Str × Str)) (r : RowResult) (db2 : DB)
    (h : ExcelUserImporter.process_row_exact_headers pr a db row m = (.ok r, db2)) :
    statusOk3 r := by
  unfold statusOk3
  unfold ExcelUserImporter.process_row_exact_headers at h
  simp only [] at h
  repeat' split at h
  all_goals try (injection h with h1 h2)
  all_goals (first
    | exact (Except.noConfusion h1)
    | (injection h1 with h3; rw [← h3]; exact Or.inl rfl)
    | (injection h1 with h3; rw [← h3]; exact Or.inr (Or.inl rfl))
    | (injection h1 with h3; rw [← h3]; exact Or.inr (Or.inr rfl)))

theorem runRows_length (proc : DB → Row → Except Str RowResult × DB) :
    ∀ (rows : List Row) (idx : Nat) (db : DB),
    (runRows proc idx db rows).1.length = rows.length := by
  intro rows
  induction rows with
  | nil => intro idx db; rfl
  | cons r rs ih => intro idx db; simp [runRows, ih]

theorem runRows_map_fst (proc : DB → Row → Except Str RowResult × DB) :
    ∀ (rows : List Row) (idx : Nat) (db : DB),
    (runRows proc idx db rows).1.map (fun e => e.1) =
      List.range' (idx + 2) rows.length := by
  intro rows
  induction rows with
  | nil => intro idx db; rfl
  | cons r rs ih =>
    intro idx db
    have harith : idx + 2 + 1 = idx + 1 + 2 := by omega
    simp only [runRows, List.map_cons, List.length_cons, List.range'_succ]
    rw [ih, harith]

theorem runRows_ok_status (proc : DB → Row → Except Str RowResult × DB)
    (hproc : ∀ db row r db2, proc db row = (.ok r, db2) → statusOk3 r) :
    ∀ (rows : List Row) (idx : Nat) (db : DB) (n : Nat) (row : Row) (r : RowResult),
    (n, row, Except.ok r) ∈ (runRows proc idx db rows).1 → statusOk3 r := by
  intro rows
  induction rows with
  | nil => intro idx db n row r h; simp [runRows] at h
  | cons r0 rs ih =>
    intro idx db n row r h
    simp only [runRows, List.mem_cons] at h
    rcases h with h | h
    · have h1 : (proc db r0).1 = Except.ok r := by
        have := congrArg (fun e => e.2.2) h
        simpa using this.symm
      exact hproc db r0 r (proc db r0).2
        (by rw [← h1])
    · exact ih (idx + 1) (proc db r0).2 n row r h

theorem mem_eq_of_nodup_keys {β : Type} :
    ∀ (l : List (Nat × β)), (l.map Prod.fst).Nodup →
    ∀ (n : Nat) (a b : β), (n, a) ∈ l → (n, b) ∈ l → a = b := by
  intro l
  induction l with
  | nil => intro _ n a b ha; simp at ha
  | cons p t ih =>
    intro hn n a b ha hb
    simp only [List.map_cons, List.nodup_cons] at hn
    rcases hn with ⟨hp, ht⟩
    simp only [List.mem_cons] at ha hb
    rcases ha with ha | ha <;> rcases hb with hb | hb
    · rw [← ha] at hb; exact (((Prod.mk.injEq _ _ _ _).mp hb).2).symm
    · exfalso
      apply hp
      have : p.1 = n := by rw [← ha]
      rw [this]
      exact List.mem_map.mpr ⟨(n, b), hb, rfl⟩
    · exfalso
      apply hp
      have : p.1 = n := by rw [← hb]
      rw [this]
      exact List.mem_map.mpr ⟨(n, a), ha, rfl⟩
    · exact ih ht n a b ha hb

theorem runRows_keys_nodup (proc : DB → Row → Except Str RowResult × DB)
    (rows : List Row) (idx : Nat) (db : DB) :
    ((runRows proc idx db rows).1.map (fun e => e.1)).Nodup := by
  rw [show (fun (e : Nat × Row × Except Str RowResult) => e.1) = Prod.fst from rfl]
  rw [show ((runRows proc idx db rows).1.map Prod.fst) =
      List.range' (idx + 2) rows.length from runRows_map_fst proc rows idx db]
  exact List.nodup_range' (idx + 2) rows.length

theorem buckets_counts (mk : Nat → RowResult → CreatedEntry)
    (m : List (Str × Str)) :
    ∀ (t : List (Nat × Row × Except Str RowResult)),
    (∀ n row r, (n, row, Except.ok r) ∈ t → statusOk3 r) →
    (buckets mk m t).created.length + (buckets mk m t).failedRows.length +
      (buckets mk m t).skippedRows.length = t.length := by
  intro t
  induction t with
  | nil => intro _; rfl
  | cons e rest ih =>
    intro h
    obtain ⟨n, row, res⟩ := e
    have hrest := ih (fun n' row' r' hm => h n' row' r' (List.mem_cons_of_mem _ hm))
    cases res with
    | error err =>
      simp only [buckets, List.length_cons]
      omega
    | ok r =>
      rcases h n row r (List.mem_cons_self _ _) with hs | hs | hs
      · simp only [buckets, if_pos hs, List.length_cons]
        omega
      · have h1 : ¬ (r.status = str "success") := by rw [hs]; decide
        simp only [buckets, if_neg h1, if_pos hs, List.length_cons]
        omega
      · have h1 : ¬ (r.status = str "success") := by rw [hs]; decide
        have h2 : ¬ (r.status = str "failed") := by rw [hs]; decide
        simp only [buckets, if_neg h1, if_neg h2, if_pos hs, List.length_cons]
        omega

theorem buckets_perm (mk : Nat → RowResult → CreatedEntry)
    (m : List (Str × Str)) (hmk : ∀ n r, (mk n r).row = n) :
    ∀ (t : List (Nat × Row × Except Str RowResult)),
    (∀ n row r, (n, row, Except.ok r) ∈ t → statusOk3 r) →
    ((buckets mk m t).created.map CreatedEntry.row ++
     (buckets mk m t).failedRows.map FailedEntry.row ++
     (buckets mk m t).skippedRows.map SkippedEntry.row).Perm
      (t.map (fun e => e.1)) := by
  intro t
  induction t with
  | nil => intro _; exact List.Perm.refl _
  | cons e rest ih =>
    intro h
    obtain ⟨n, row, res⟩ := e
    have hrest := ih (fun n' row' r' hm => h n' row' r' (List.mem_cons_of_mem _ hm))
    cases res with
    | error err =>
      simp only [buckets, List.map_cons]
      exact (List.perm_middle.append_right _).trans (hrest.cons n)
    | ok r =>
      rcases h n row r (List.mem_cons_self _ _) with hs | hs | hs
      · simp only [buckets, if_pos hs, List.map_cons, hmk]
        exact hrest.cons n
      · have h1 : ¬ (r.status = str "success") := by rw [hs]; decide
        simp only [buckets, if_neg h1, if_pos hs, List.map_cons]
        exact (List.perm_middle.append_right _).trans (hrest.cons n)
      · have h1 : ¬ (r.status = str "success") := by rw [hs]; decide
        have h2 : ¬ (r.status = str "failed") := by rw [hs]; decide
        simp only [buckets, if_neg h1, if_neg h2, if_pos hs, List.map_cons]
        exact List.perm_middle.trans (hrest.cons n)

theorem buckets_skipped_mem (mk : Nat → RowResult → CreatedEntry)
    (m : List (Str × Str)) :
    ∀ (t : List (Nat × Row × Except Str RowResult)) (n : Nat) (row : Row)
      (r : RowResult), (n, row, Except.ok r) ∈ t → r.status = str "skipped" →
    ∃ s, s ∈ (buckets mk m t).skippedRows ∧ s.row = n ∧ s.reason = r.reason := by
  intro t
  induction t with
  | nil => intro n row r hm; simp at hm
  | cons e rest ih =>
    intro n row r hm hs
    obtain ⟨n0, row0, res0⟩ := e
    rcases List.mem_cons.mp hm with he | he
    · injection he with h1 h23
      injection h23 with h2 h3
      subst h1; subst h2
      have hn1 : ¬ (r.status = str "success") := by rw [hs]; decide
      have hn2 : ¬ (r.status = str "failed") := by rw [hs]; decide
      refine ⟨{ row := n, reason := r.reason, data := clean_row_data row m },
        ?_, rfl, rfl⟩
      rw [← h3]
      simp only [buckets, if_neg hn1, if_neg hn2, if_pos hs]
      exact List.mem_cons_self _ _
    · rcases ih n row r he hs with ⟨s, hsm, hr1, hr2⟩
      refine ⟨s, ?_, hr1, hr2⟩
      cases res0 with
      | error e0 => simpa only [buckets] using hsm
      | ok r0 =>
        by_cases c1 : r0.status = str "success"
        · simpa only [buckets, if_pos c1] using hsm
        · by_cases c2 : r0.status = str "failed"
          · simpa only [buckets, if_neg c1, if_pos c2] using hsm
          · by_cases c3 : r0.status = str "skipped"
            · simp only [buckets, if_neg c1, if_neg c2, if_pos c3]
              exact List.mem_cons_of_mem _ hsm
            · simpa only [buckets, if_neg c1, if_neg c2, if_neg c3] using hsm

theorem buckets_error_mem (mk : Nat → RowResult → CreatedEntry)
    (m : List (Str × Str)) :
    ∀ (t : List (Nat × Row × Except Str RowResult)) (n : Nat) (row : Row)
      (e : Str), (n, row, Except.error e) ∈ t →
    ∃ f, f ∈ (buckets mk m t).failedRows ∧ f.row = n ∧
      f.error = str "Unexpected error: " ++ e ∧ f.field_errors = [] := by
  intro t
  induction t with
  | nil => intro n row e hm; simp at hm
  | cons e0 rest ih =>
    intro n row e hm
    obtain ⟨n0, row0, res0⟩ := e0
    rcases List.mem_cons.mp hm with he | he
    · injection he with h1 h23
      injection h23 with h2 h3
      subst h1; subst h2
      refine ⟨{ row := n, error := str "Unexpected error: " ++ e,
                data := clean_row_data row m, field_errors := [] },
        ?_, rfl, rfl, rfl⟩
      rw [← h3]
      simp only [buckets]
      exact List.mem_cons_self _ _
    · rcases ih n row e he with ⟨f, hfm, hr1, hr2, hr3⟩
      refine ⟨f, ?_, hr1, hr2, hr3⟩
      cases res0 with
      | error e1 =>
        simp only [buckets]
        exact List.mem_cons_of_mem _ hfm
      | ok r0 =>
        by_cases c1 : r0.status = str "success"
        · simpa only [buckets, if_pos c1] using hfm
        · by_cases c2 : r0.status = str "failed"
          · simp only [buckets, if_neg c1, if_pos c2]
            exact List.mem_cons_of_mem _ hfm
          · by_cases c3 : r0.status = str "skipped"
            · simpa only [buckets, if_neg c1, if_neg c2, if_pos c3] using hfm
            · simpa only [buckets, if_neg c1, if_neg c2, if_neg c3] using hfm

theorem buckets_created_origin (mk : Nat → RowResult → CreatedEntry)
    (m : List (Str × Str)) :
    ∀ (t : List (Nat × Row × Except Str RowResult)) (c : CreatedEntry),
    c ∈ (buckets mk m t).created →
    ∃ n row r, (n, row, Except.ok r) ∈ t ∧ r.status = str "success" ∧
      c = mk n r := by
  intro t
  induction t with
  | nil => intro c hc; simp [buckets] at hc
  | cons e0 rest ih =>
    intro c hc
    obtain ⟨n0, row0, res0⟩ := e0
    have tail : c ∈ (buckets mk m rest).created →
        ∃ n row r, (n, row, Except.ok r) ∈ (n0, row0, res0) :: rest ∧
          r.status = str "success" ∧ c = mk n r := by
      intro hmem
      rcases ih c hmem with ⟨n, row, r, hr1, hr2, hr3⟩
      exact ⟨n, row, r, List.mem_cons_of_mem _ hr1, hr2, hr3⟩
    cases res0 with
    | error e1 => exact tail (by simpa only [buckets] using hc)
    | ok r0 =>
      by_cases c1 : r0.status = str "success"
      · simp only [buckets, if_pos c1] at hc
        rcases List.mem_cons.mp hc with hce | hce
        · exact ⟨n0, row0, r0, List.mem_cons_self _ _, c1, hce⟩
        · exact tail hce
      · by_cases c2 : r0.status = str "failed"
        · exact tail (by simpa only [buckets, if_neg c1, if_pos c2] using hc)
        · by_cases c3 : r0.status = str "skipped"
          · exact tail (by simpa only [buckets, if_neg c1, if_neg c2, if_pos c3] using hc)
          · exact tail (by simpa only [buckets, if_neg c1, if_neg c2, if_neg c3] using hc)

theorem mkReport_partition (proc : DB → Row → Except Str RowResult × DB)
    (mk : Nat → RowResult → CreatedEntry) (m : List (Str × Str))
    (hproc : ∀ db row r db2, proc db row = (.ok r, db2) → statusOk3 r)
    (hmk : ∀ n r, (mk n r).row = n) (rows : List Row) (db : DB)
    (admin : Str) :
    (mkReport rows.length admin
        (buckets mk m (runRows proc 0 db rows).1)).summary.total_processed =
      (mkReport rows.length admin
        (buckets mk m (runRows proc 0 db rows).1)).summary.successful +
      (mkReport rows.length admin
        (buckets mk m (runRows proc 0 db rows).1)).summary.failed +
      (mkReport rows.length admin
        (buckets mk m (runRows proc 0 db rows).1)).summary.skipped ∧
    (mkReport rows.length admin
        (buckets mk m (runRows proc 0 db rows).1)).summary.total_processed =
      rows.length ∧
    ((mkReport rows.length admin
        (buckets mk m (runRows proc 0 db rows).1)).successful.map CreatedEntry.row ++
     (mkReport rows.length admin
        (buckets mk m (runRows proc 0 db rows).1)).failedRows.map FailedEntry.row ++
     (mkReport rows.length admin
        (buckets mk m (runRows proc 0 db rows).1)).skippedRows.map SkippedEntry.row).Perm
      (List.range' 2 rows.length) := by
  have htri : ∀ n row r, (n, row, Except.ok r) ∈ (runRows proc 0 db rows).1 →
      statusOk3 r :=
    fun n row r hm => runRows_ok_status proc hproc rows 0 db n row r hm
  refine ⟨rfl, ?_, ?_⟩
  · exact (buckets_counts mk m _ htri).trans (runRows_length proc rows 0 db)
  · have hp := buckets_perm mk m hmk _ htri
    rw [runRows_map_fst proc rows 0 db] at hp
    exact hp

/-- C1: for every import that passes the header check, each input row
produces exactly one RowOutcome — the row numbers of the three buckets are
a permutation of the input row numbers 2 .. rows+1 — and the report
satisfies total_processed = successful + failed + skipped = total_rows,
in both importer variants. -/
theorem C1_row_outcome_partition (pr : Prims) (file : ExcelFile)
    (adminEmail : Str) (db : DB) :
    (∀ rep db2,
      MemberExcelImporter.import_members pr file adminEmail db = .ok (rep, db2) →
      rep.summary.total_processed =
        rep.summary.successful + rep.summary.failed + rep.summary.skipped ∧
      rep.summary.total_processed = rep.summary.total_rows ∧
      rep.summary.total_rows = file.rows.length ∧
      (rep.successful.map CreatedEntry.row ++
       rep.failedRows.map FailedEntry.row ++
       rep.skippedRows.map SkippedEntry.row).Perm
        (List.range' 2 file.rows.length)) ∧
    (∀ rep db2,
      ExcelUserImporter.import_users pr file adminEmail db = .ok (rep, db2) →
      rep.summary.total_processed =
        rep.summary.successful + rep.summary.failed + rep.summary.skipped ∧
      rep.summary.total_processed = rep.summary.total_rows ∧
      rep.summary.total_rows = file.rows.length ∧
      (rep.successful.map CreatedEntry.row ++
       rep.failedRows.map FailedEntry.row ++
       rep.skippedRows.map SkippedEntry.row).Perm
        (List.range' 2 file.rows.length)) := by
  constructor
  · intro rep db2 h
    unfold MemberExcelImporter.import_members at h
    simp only [] at h
    split at h
    · injection h with h1
      injection h1 with hr hd
      subst hr
      have hpart := mkReport_partition
        (fun db row => MemberExcelImporter.process_member_row pr db row
          (headerMapping file.headers))
        MemberExcelImporter.mkCreated (headerMapping file.headers)
        (fun db row r db2 hh => member_status_cases pr db row _ r db2 hh)
        (fun n r => rfl) file.rows db adminEmail
      exact ⟨hpart.1, hpart.2.1, rfl, hpart.2.2⟩
    · exact Except.noConfusion h
  · intro rep db2 h
    unfold ExcelUserImporter.import_users at h
    simp only [] at h
    split at h
    · injection h with h1
      injection h1 with hr hd
      subst hr
      have hpart := mkReport_partition
        (fun db row => ExcelUserImporter.process_row_exact_headers pr adminEmail
          db row (headerMapping file.headers))
        ExcelUserImporter.mkCreated (headerMapping file.headers)
        (fun db row r db2 hh => user_status_cases pr adminEmail db row _ r db2 hh)
        (fun n r => rfl) file.rows db adminEmail
      exact ⟨hpart.1, hpart.2.1, rfl, hpart.2.2⟩
    · exact Except.noConfusion h

/-- Witness for C1: both variants run on the concrete five-row file. -/
theorem C1_witness :
    (memberRun5.1.summary.total_processed =
       memberRun5.1.summary.successful + memberRun5.1.summary.failed +
       memberRun5.1.summary.skipped ∧
     memberRun5.1.summary.total_processed = memberRun5.1.summary.total_rows ∧
     memberRun5.1.summary.total_rows = file5.rows.length ∧
     (memberRun5.1.successful.map CreatedEntry.row ++
      memberRun5.1.failedRows.map FailedEntry.row ++
      memberRun5.1.skippedRows.map SkippedEntry.row).Perm
       (List.range' 2 file5.rows.length)) ∧
    (userRun5.1.summary.total_processed =
       userRun5.1.summary.successful + userRun5.1.summary.failed +
       userRun5.1.summary.skipped ∧
     userRun5.1.summary.total_processed = userRun5.1.summary.total_rows ∧
     userRun5.1.summary.total_rows = file5.rows.length ∧
     (userRun5.1.successful.map CreatedEntry.row ++
      userRun5.1.failedRows.map FailedEntry.row ++
      userRun5.1.skippedRows.map SkippedEntry.row).Perm
       (List.range' 2 file5.rows.length)) :=
  ⟨(C1_row_outcome_partition testPrims file5 (str "boss") dbThree).1
      memberRun5.1 memberRun5.2 rfl,
   (C1_row_outcome_partition testPrims file5 (str "boss")
      { users := [], members := [], stations := [], divisions := [] }).2
      userRun5.1 userRun5.2 rfl⟩

/-- C6: if any required header (Staff # in both variants, additionally Name
in the full-user variant) is absent after trimming the uploaded headers,
the import aborts with a single configuration-level error naming the
missing headers and no row outcome is produced; when every required header
is present the import returns a report, whatever other (optional) headers
are absent. -/
theorem C6_required_header_abort (pr : Prims) (file : ExcelFile)
    (adminEmail : Str) (db : DB) :
    (¬ ((MemberExcelImporter.REQUIRED_HEADERS.filter
          (fun h => !(hasHeader (headerMapping file.headers) h))).isEmpty = true) →
      MemberExcelImporter.import_members pr file adminEmail db =
        .error (str "Missing required headers: " ++
          joinCommaSpace (MemberExcelImporter.REQUIRED_HEADERS.filter
            (fun h => !(hasHeader (headerMapping file.headers) h))))) ∧
    (((MemberExcelImporter.REQUIRED_HEADERS.filter
          (fun h => !(hasHeader (headerMapping file.headers) h))).isEmpty = true) →
      ∃ rep db2,
        MemberExcelImporter.import_members pr file adminEmail db = .ok (rep, db2)) ∧
    (¬ ((ExcelUserImporter.required_headers.filter
          (fun h => !(hasHeader (headerMapping file.headers) h))).isEmpty = true) →
      ExcelUserImporter.import_users pr file adminEmail db =
        .error (str "Missing required headers: " ++
          joinCommaSpace (ExcelUserImporter.required_headers.filter
            (fun h => !(hasHeader (headerMapping file.headers) h))))) ∧
    (((ExcelUserImporter.required_headers.filter
          (fun h => !(hasHeader (headerMapping file.headers) h))).isEmpty = true) →
      ∃ rep db2,
        ExcelUserImporter.import_users pr file adminEmail db = .ok (rep, db2)) := by
  refine ⟨?_, ?_, ?_, ?_⟩
  · intro hmiss
    unfold MemberExcelImporter.import_members
    simp only []
    rw [if_neg hmiss]
  · intro hpos
    unfold MemberExcelImporter.import_members
    simp only []
    rw [if_pos hpos]
    exact ⟨_, _, rfl⟩
  · intro hmiss
    unfold ExcelUserImporter.import_users
    simp only []
    rw [if_neg hmiss]
  · intro hpos
    unfold ExcelUserImporter.import_users
    simp only []
    rw [if_pos hpos]
    exact ⟨_, _, rfl⟩

/-- Witness for C6: the member import aborts on a file without the Staff #
header with the error naming it, and the full-user import of the five-row
file (which has no optional header at all) returns a report. -/
theorem C6_witness :
    MemberExcelImporter.import_members testPrims fileNoStaff (str "boss") dbEmpty =
      .error (str "Missing required headers: Staff #") ∧
    ExcelUserImporter.import_users testPrims fileNoStaff (str "boss") dbEmpty =
      .error (str "Missing required headers: Staff #") ∧
    (∃ rep db2, MemberExcelImporter.import_members testPrims file5 (str "boss")
      dbEmpty = .ok (rep, db2)) ∧
    (∃ rep db2, ExcelUserImporter.import_users testPrims file5 (str "boss")
      dbEmpty = .ok (rep, db2)) :=
  ⟨by
     rw [(C6_required_header_abort testPrims fileNoStaff (str "boss") dbEmpty).1
       (by decide)]
     decide,
   by
     rw [(C6_required_header_abort testPrims fileNoStaff (str "boss") dbEmpty).2.2.1
       (by decide)]
     decide,
   (C6_required_header_abort testPrims file5 (str "boss") dbEmpty).2.1 (by decide),
   (C6_required_header_abort testPrims file5 (str "boss") dbEmpty).2.2.2 (by decide)⟩

/-- C7: an exception escaping an individual row is caught at the row
boundary of the loop shared by both import drivers: the trace still carries
one outcome per row (so the remaining rows are processed), and the escaped
exception of a row surfaces as a Failed entry for exactly that row number
carrying the message prefixed with the unexpected-error marker, with empty
field errors — whatever row procedure drives the loop. -/
theorem C7_row_exception_caught (proc : DB → Row → Except Str RowResult × DB)
    (mk : Nat → RowResult → CreatedEntry) (m : List (Str × Str)) (idx : Nat)
    (db : DB) (rows : List Row) :
    (runRows proc idx db rows).1.length = rows.length ∧
    (∀ n row e, (n, row, Except.error e) ∈ (runRows proc idx db rows).1 →
      ∃ f, f ∈ (buckets mk m (runRows proc idx db rows).1).failedRows ∧
        f.row = n ∧ f.error = str "Unexpected error: " ++ e ∧
        f.field_errors = []) :=
  ⟨runRows_length proc rows idx db,
   fun n row e hm => buckets_error_mem mk m _ n row e hm⟩

/-- Witness for C7: a member row whose save raises and a full-user row
whose duplicate check raises; in both loops all rows still produce an
outcome and the raised message lands in a Failed entry of the right row. -/
theorem C7_witness :
    ((runRows memProc 0 dbThree [rowSaveErr, mkRow2 (some "S3") none]).1.length = 2 ∧
     ∃ f, f ∈ (buckets MemberExcelImporter.mkCreated m2
         (runRows memProc 0 dbThree [rowSaveErr, mkRow2 (some "S3") none]).1).failedRows ∧
       f.row = 2 ∧ f.error = str "Unexpected error: boom" ∧ f.field_errors = []) ∧
    ((runRows userProc 0 dbEmpty [rowLookupErr, mkRow2 (some "S4") (some "Yaw")]).1.length = 2 ∧
     ∃ f, f ∈ (buckets ExcelUserImporter.mkCreated m2
         (runRows userProc 0 dbEmpty [rowLookupErr, mkRow2 (some "S4") (some "Yaw")]).1).failedRows ∧
       f.row = 2 ∧ f.error = str "Unexpected error: db down" ∧ f.field_errors = []) :=
  ⟨⟨(C7_row_exception_caught memProc MemberExcelImporter.mkCreated m2 0 dbThree
      [rowSaveErr, mkRow2 (some "S3") none]).1,
    (C7_row_exception_caught memProc MemberExcelImporter.mkCreated m2 0 dbThree
      [rowSaveErr, mkRow2 (some "S3") none]).2 2 rowSaveErr (str "boom")
      (List.Mem.head _)⟩,
   ⟨(C7_row_exception_caught userProc ExcelUserImporter.mkCreated m2 0 dbEmpty
      [rowLookupErr, mkRow2 (some "S4") (some "Yaw")]).1,
    (C7_row_exception_caught userProc ExcelUserImporter.mkCreated m2 0 dbEmpty
      [rowLookupErr, mkRow2 (some "S4") (some "Yaw")]).2 2 rowLookupErr
      (str "db down") (List.Mem.head _)⟩⟩

theorem baseCode_length (name defaultCode : Str) (hd : defaultCode.length = 3) :
    (baseCode name defaultCode).length = 3 := by
  unfold baseCode
  simp only []
  by_cases hc : (stripNonLetters name).isEmpty
  · rw [if_pos hc, if_neg (by omega)]
    exact hd
  · rw [if_neg hc]
    by_cases h3 : ((stripNonLetters name).take 3).length < 3
    · rw [if_pos h3, List.length_append, List.length_replicate]
      omega
    · rw [if_neg h3]
      have := List.length_take 3 (stripNonLetters name)
      omega

theorem baseCode_of_long (name defaultCode : Str)
    (h : 3 ≤ (stripNonLetters name).length) :
    baseCode name defaultCode = (stripNonLetters name).take 3 := by
  unfold baseCode
  simp only []
  have hne : ¬ (stripNonLetters name).isEmpty := by
    cases hsl : stripNonLetters name with
    | nil => rw [hsl] at h; simp at h
    | cons a l => simp
  rw [if_neg hne, if_neg]
  rw [List.length_take]
  omega

theorem baseCode_of_short (name defaultCode : Str)
    (hne : stripNonLetters name ≠ [])
    (h : (stripNonLetters name).length < 3) :
    baseCode name defaultCode =
      stripNonLetters name ++
        List.replicate (3 - (stripNonLetters name).length) 'X' := by
  unfold baseCode
  simp only []
  have hne2 : ¬ (stripNonLetters name).isEmpty := by
    cases hsl : stripNonLetters name with
    | nil => exact absurd hsl hne
    | cons a l => simp
  rw [if_neg hne2, List.take_of_length_le (by omega), if_pos (by omega)]

theorem baseCode_of_empty (name defaultCode : Str)
    (he : stripNonLetters name = []) (hd : defaultCode.length = 3) :
    baseCode name defaultCode = defaultCode := by
  unfold baseCode
  simp only []
  rw [he]
  simp only [List.isEmpty_nil, if_true]
  rw [if_neg (by omega)]

/-- C2 counterexample: the claim asserts the full-user variant runs each
row inside an independent per-row transaction; in the source its
`with transaction.atomic()` (utils/smart_importer.py line 56) encloses the
whole row loop, so its scope is not per-row. -/
theorem C2_counterexample : ExcelUserImporter.txnScope ≠ TxnScope.perRow := by
  decide

/-- C2 (amended): both variants run the entire row loop inside one
enclosing batch-level transaction — the member variant at
services/import_service.py line 63 and the full-user variant at
utils/smart_importer.py line 56; neither uses per-row transactions. -/
theorem C2_both_batch_level :
    MemberExcelImporter.txnScope = TxnScope.batchLevel ∧
    ExcelUserImporter.txnScope = TxnScope.batchLevel :=
  ⟨rfl, rfl⟩

/-- C10: for every finite list of already-used codes and every base code,
the probe loop terminates within used.length + 1 iterations and returns a
code not in the used list, because its successive candidates
(base, base ++ "01", base ++ "02", ...) are pairwise distinct; the code
returned is the first free candidate. -/
theorem C10_probe_terminates (used : List Str) (base : Str) :
    (∀ i j, candidate base i = candidate base j → i = j) ∧
    (∃ k, probeCode used base 0 (used.length + 1) = some (candidate base k) ∧
      uniqueCode used base = candidate base k ∧
      candidate base k ∉ used ∧ ∀ j < k, candidate base j ∈ used) := by
  refine ⟨fun i j h => candidate_inj base h, ?_⟩
  rcases probeCode_fuel_suffices used base with ⟨k, h1, h2, h3⟩
  exact ⟨k, h1, by simp [uniqueCode, h1], h2, h3⟩

/-- C3: for a station/division name with no case-insensitive match, the
resolver creates the entity with the original name; its code is derived
from the base code — the uppercased letters of the name truncated to 3
characters, right-padded with X, defaulting to STN/DIV when no letters
remain, always of length 3 — and on collision carries the first free
incrementing zero-padded two-digit suffix (base, base01, base02, ...),
never colliding with an existing code; concretely, "Accra Branch" on an
empty store receives ACC and a later "Access Point" receives ACC01. -/
theorem C3_code_derivation (db : DB) (name : Str) :
    ((db.stations.find? (fun s => pyLower s.name == pyLower name)) = none →
      (getOrCreateStation db name).1.2 = true ∧
      (getOrCreateStation db name).1.1.name = name ∧
      (getOrCreateStation db name).1.1.is_active = true ∧
      (getOrCreateStation db name).1.1.code ∉ db.stations.map StationRec.code ∧
      (∃ k, (getOrCreateStation db name).1.1.code =
          candidate (baseCode name (str "STN")) k ∧
        ∀ j < k, candidate (baseCode name (str "STN")) j ∈
          db.stations.map StationRec.code)) ∧
    (∀ directorate,
      (db.divisions.find? (fun d => pyLower d.name == pyLower name)) = none →
      (getOrCreateDivision db name directorate).1.2 = true ∧
      (getOrCreateDivision db name directorate).1.1.name = name ∧
      (getOrCreateDivision db name directorate).1.1.code ∉
        db.divisions.map DivisionRec.code ∧
      (∃ k, (getOrCreateDivision db name directorate).1.1.code =
          candidate (baseCode name (str "DIV")) k ∧
        ∀ j < k, candidate (baseCode name (str "DIV")) j ∈
          db.divisions.map DivisionRec.code)) ∧
    (baseCode name (str "STN")).length = 3 ∧
    (stripNonLetters name = [] →
      baseCode name (str "STN") = str "STN" ∧
      baseCode name (str "DIV") = str "DIV") ∧
    (3 ≤ (stripNonLetters name).length →
      baseCode name (str "STN") = (stripNonLetters name).take 3) ∧
    (stripNonLetters name ≠ [] → (stripNonLetters name).length < 3 →
      baseCode name (str "STN") =
        stripNonLetters name ++
          List.replicate (3 - (stripNonLetters name).length) 'X') ∧
    (∀ base : Str, candidate base 0 = base ∧
      candidate base 1 = base ++ str "01" ∧
      candidate base 2 = base ++ str "02") ∧
    (getOrCreateStation dbEmpty (str "Accra Branch")).1.1.code = str "ACC" ∧
    (getOrCreateStation dbEmpty (str "Accra Branch")).1.2 = true ∧
    (getOrCreateStation (getOrCreateStation dbEmpty (str "Accra Branch")).2
        (str "Access Point")).1.1.code = str "ACC01" ∧
    (getOrCreateStation (getOrCreateStation dbEmpty (str "Accra Branch")).2
        (str "Access Point")).1.2 = true := by
  refine ⟨?_, ?_, baseCode_length name (str "STN") rfl,
    fun he => ⟨baseCode_of_empty name (str "STN") he rfl,
      baseCode_of_empty name (str "DIV") he rfl⟩,
    fun h3 => baseCode_of_long name (str "STN") h3,
    fun hne hlt => baseCode_of_short name (str "STN") hne hlt,
    ?_, by decide, by decide, by decide, by decide⟩
  · intro hfind
    unfold getOrCreateStation
    rw [hfind]
    simp only []
    rcases uniqueCode_spec (db.stations.map StationRec.code)
        (baseCode name (str "STN")) with ⟨k, hk1, hk2, hk3⟩
    refine ⟨by trivial, by trivial, by trivial, ?_, ⟨k, hk1, hk3⟩⟩
    rw [hk1]
    exact hk2
  · intro directorate hfind
    unfold getOrCreateDivision
    rw [hfind]
    simp only []
    rcases uniqueCode_spec (db.divisions.map DivisionRec.code)
        (baseCode name (str "DIV")) with ⟨k, hk1, hk2, hk3⟩
    refine ⟨by trivial, by trivial, ?_, ⟨k, hk1, hk3⟩⟩
    rw [hk1]
    exact hk2
  · intro base
    refine ⟨rfl, ?_, ?_⟩
    · show base ++ pad2 1 = base ++ str "01"
      rw [show pad2 1 = str "01" from by decide]
    · show base ++ pad2 2 = base ++ str "02"
      rw [show pad2 2 = str "02" from by decide]

/-- Witness for C3: the two concrete resolutions, obtained from the
theorem with the no-match hypotheses discharged by computation. -/
theorem C3_witness :
    ((getOrCreateStation dbEmpty (str "Accra Branch")).1.2 = true ∧
     (getOrCreateStation dbEmpty (str "Accra Branch")).1.1.name =
       str "Accra Branch" ∧
     (getOrCreateStation dbEmpty (str "Accra Branch")).1.1.is_active = true ∧
     (getOrCreateStation dbEmpty (str "Accra Branch")).1.1.code ∉
       dbEmpty.stations.map StationRec.code ∧
     (∃ k, (getOrCreateStation dbEmpty (str "Accra Branch")).1.1.code =
         candidate (baseCode (str "Accra Branch") (str "STN")) k ∧
       ∀ j < k, candidate (baseCode (str "Accra Branch") (str "STN")) j ∈
         dbEmpty.stations.map StationRec.code)) ∧
    ((getOrCreateDivision dbEmpty (str "Accra Branch") none).1.2 = true ∧
     (getOrCreateDivision dbEmpty (str "Accra Branch") none).1.1.name =
       str "Accra Branch" ∧
     (getOrCreateDivision dbEmpty (str "Accra Branch") none).1.1.code ∉
       dbEmpty.divisions.map DivisionRec.code ∧
     (∃ k, (getOrCreateDivision dbEmpty (str "Accra Branch") none).1.1.code =
         candidate (baseCode (str "Accra Branch") (str "DIV")) k ∧
       ∀ j < k, candidate (baseCode (str "Accra Branch") (str "DIV")) j ∈
         dbEmpty.divisions.map DivisionRec.code)) :=
  ⟨(C3_code_derivation dbEmpty (str "Accra Branch")).1 (by decide),
   (C3_code_derivation dbEmpty (str "Accra Branch")).2.1 none (by decide)⟩

/-- C5: a row whose required staff-number field is missing, or blank after
cleaning, yields a Failed outcome with a field-level error naming Staff #,
leaves the store untouched and stops — such a row is never Skipped and
never Created, in both importer variants. -/
theorem C5_blank_staff_fails (pr : Prims) (adminEmail : Str) (db : DB)
    (row : Row) (m : List (Str × Str)) :
    ((getValue row m (str "Staff #") none = none ∨
      (∃ v, getValue row m (str "Staff #") none = some v ∧ cleanStringM v = [])) →
      ∃ r, MemberExcelImporter.process_member_row pr db row m = (.ok r, db) ∧
        r.status = str "failed" ∧
        r.field_errors.map Prod.fst = [str "Staff #"] ∧
        r.status ≠ str "skipped" ∧ r.status ≠ str "success") ∧
    ((getValue row m (str "Staff #") none = none ∨
      (∃ v, getValue row m (str "Staff #") none = some v ∧ cleanStringU v = [])) →
      ∃ r, ExcelUserImporter.process_row_exact_headers pr adminEmail db row m =
          (.ok r, db) ∧
        r.status = str "failed" ∧
        r.field_errors.map Prod.fst = [str "Staff #"] ∧
        r.status ≠ str "skipped" ∧ r.status ≠ str "success") := by
  constructor
  · rintro (hnone | ⟨v, hsome, hblank⟩)
    · simp only [MemberExcelImporter.process_member_row, hnone]
      exact ⟨_, rfl, rfl, rfl, by decide, by decide⟩
    · simp only [MemberExcelImporter.process_member_row, hsome, hblank,
        List.isEmpty_nil, if_true]
      exact ⟨_, rfl, rfl, rfl, by decide, by decide⟩
  · rintro (hnone | ⟨v, hsome, hblank⟩)
    · simp only [ExcelUserImporter.process_row_exact_headers, hnone]
      exact ⟨_, rfl, rfl, rfl, by decide, by decide⟩
    · simp only [ExcelUserImporter.process_row_exact_headers, hsome, hblank,
        List.isEmpty_nil, if_true]
      exact ⟨_, rfl, rfl, rfl, by decide, by decide⟩

/-- Witness for C5: a whitespace-only staff cell in the member variant
and in the full-user variant, and an absent staff cell in both. -/
theorem C5_witness :
    (∃ r, MemberExcelImporter.process_member_row testPrims dbThree
        rowBlankStaff m2 = (.ok r, dbThree) ∧
      r.status = str "failed" ∧
      r.field_errors.map Prod.fst = [str "Staff #"] ∧
      r.status ≠ str "skipped" ∧ r.status ≠ str "success") ∧
    (∃ r, ExcelUserImporter.process_row_exact_headers testPrims (str "boss")
        dbEmpty rowBlankStaff m2 = (.ok r, dbEmpty) ∧
      r.status = str "failed" ∧
      r.field_errors.map Prod.fst = [str "Staff #"] ∧
      r.status ≠ str "skipped" ∧ r.status ≠ str "success") ∧
    (∃ r, MemberExcelImporter.process_member_row testPrims dbThree
        rowNoStaff m2 = (.ok r, dbThree) ∧
      r.status = str "failed" ∧
      r.field_errors.map Prod.fst = [str "Staff #"] ∧
      r.status ≠ str "skipped" ∧ r.status ≠ str "success") :=
  ⟨(C5_blank_staff_fails testPrims (str "boss") dbThree rowBlankStaff m2).1
     (Or.inr ⟨str "   ", by decide, by decide⟩),
   (C5_blank_staff_fails testPrims (str "boss") dbEmpty rowBlankStaff m2).2
     (Or.inr ⟨str "   ", by decide, by decide⟩),
   (C5_blank_staff_fails testPrims (str "boss") dbThree rowNoStaff m2).1
     (Or.inl (by decide))⟩

theorem isEmpty_false_of_ne_nil {l : Str} (h : l ≠ []) : l.isEmpty = false := by
  cases l with
  | nil => exact absurd rfl h
  | cons a t => rfl

theorem getOrCreateStation_users (db : DB) (n : Str) :
    ((getOrCreateStation db n).2).users = db.users := by
  unfold getOrCreateStation
  split <;> rfl

theorem getOrCreateStation_members (db : DB) (n : Str) :
    ((getOrCreateStation db n).2).members = db.members := by
  unfold getOrCreateStation
  split <;> rfl

theorem getOrCreateDivision_users (db : DB) (n : Str) (d : Option Str) :
    ((getOrCreateDivision db n d).2).users = db.users := by
  unfold getOrCreateDivision
  split <;> rfl

theorem getOrCreateDivision_members (db : DB) (n : Str) (d : Option Str) :
    ((getOrCreateDivision db n d).2).members = db.members := by
  unfold getOrCreateDivision
  split <;> rfl

theorem memberStationBranch_users (db : DB) (n : Str) :
    ((MemberExcelImporter.stationBranch db n).2.2).users = db.users := by
  unfold MemberExcelImporter.stationBranch
  split
  · rfl
  · exact getOrCreateStation_users db n

theorem memberStationBranch_members (db : DB) (n : Str) :
    ((MemberExcelImporter.stationBranch db n).2.2).members = db.members := by
  unfold MemberExcelImporter.stationBranch
  split
  · rfl
  · exact getOrCreateStation_members db n

theorem memberDivisionBranch_users (db : DB) (row : Row) (m : List (Str × Str))
    (n : Str) :
    ((MemberExcelImporter.divisionBranch db row m n).2.2).users = db.users := by
  unfold MemberExcelImporter.divisionBranch
  split
  · rfl
  · exact getOrCreateDivision_users db n _

theorem memberDivisionBranch_members (db : DB) (row : Row)
    (m : List (Str × Str)) (n : Str) :
    ((MemberExcelImporter.divisionBranch db row m n).2.2).members = db.members := by
  unfold MemberExcelImporter.divisionBranch
  split
  · rfl
  · exact getOrCreateDivision_members db n _

theorem userStationBranch_users (db : DB) (row : Row) (m : List (Str × Str)) :
    ((ExcelUserImporter.stationBranch db row m).2.2.2.2).users = db.users := by
  unfold ExcelUserImporter.stationBranch
  cases hg : getValue row m (str "Station") none with
  | none => rfl
  | some r0 =>
    simp only []
    by_cases he : (cleanStringU r0).isEmpty = true
    · rw [if_pos he]
    · rw [if_neg he]
      exact getOrCreateStation_users db _

theorem userDivisionBranch_users (db : DB) (row : Row) (m : List (Str × Str)) :
    ((ExcelUserImporter.divisionBranch db row m).2.2.2.2).users = db.users := by
  unfold ExcelUserImporter.divisionBranch
  cases hg : getValue row m (str "Division") none with
  | none => rfl
  | some r0 =>
    simp only []
    by_cases he : (cleanStringU r0).isEmpty = true
    · rw [if_pos he]
    · rw [if_neg he]
      exact getOrCreateDivision_users db _ _

theorem stationUpdate_email (u : UserRec) (so : Option StationRec) :
    (MemberExcelImporter.stationUpdate u so).email = u.email := by
  unfold MemberExcelImporter.stationUpdate
  cases so <;> rfl

theorem stationUpdate_staff (u : UserRec) (so : Option StationRec) :
    (MemberExcelImporter.stationUpdate u so).staff_id = u.staff_id := by
  unfold MemberExcelImporter.stationUpdate
  cases so <;> rfl

theorem divisionUpdate_email (u : UserRec) (dv : Option DivisionRec) :
    (MemberExcelImporter.divisionUpdate u dv).email = u.email := by
  unfold MemberExcelImporter.divisionUpdate
  cases dv <;> rfl

theorem divisionUpdate_staff (u : UserRec) (dv : Option DivisionRec) :
    (MemberExcelImporter.divisionUpdate u dv).staff_id = u.staff_id := by
  unfold MemberExcelImporter.divisionUpdate
  cases dv <;> rfl

theorem memberEmailBranch_drops (db : DB) (u2 : UserRec) (e : Str)
    (hne : e ≠ [])
    (hbad : emailFormatOk e = false ∨
      db.users.any (fun u => u.email == some e && u.staff_id != u2.staff_id) = true) :
    (MemberExcelImporter.emailBranch db u2 e).1 = u2 ∧
    ((MemberExcelImporter.emailBranch db u2 e).2 =
       [str "Invalid email format: \"" ++ e ++ str "\". Skipping email update."] ∨
     (MemberExcelImporter.emailBranch db u2 e).2 =
       [str "Email \"" ++ e ++
         str "\" already exists for another user. Skipping email update."]) := by
  unfold MemberExcelImporter.emailBranch
  rw [isEmpty_false_of_ne_nil hne]
  simp only [Bool.false_eq_true, if_false]
  by_cases hf : emailFormatOk e = true
  · rcases hbad with hbad | hbad
    · rw [hf] at hbad; exact absurd hbad (by decide)
    · rw [if_pos hf, if_pos hbad]
      exact ⟨rfl, Or.inr rfl⟩
  · rw [if_neg hf]
    exact ⟨rfl, Or.inl rfl⟩

theorem userEmailBranch_drops (db : DB) (row : Row) (m : List (Str × Str))
    (ev : Str) (hemail : getValue row m (str "Email") none = some ev)
    (hne : cleanStringU ev ≠ [])
    (hbad : emailFormatOk (cleanStringU ev) = false ∨
      db.users.any (fun u => u.email == some (cleanStringU ev)) = true) :
    (ExcelUserImporter.emailBranch db row m).1 = none ∧
    ((ExcelUserImporter.emailBranch db row m).2 =
       [str "Invalid email format: \"" ++ cleanStringU ev ++
         str "\". Email field will be left blank."] ∨
     (ExcelUserImporter.emailBranch db row m).2 =
       [str "Email \"" ++ cleanStringU ev ++
         str "\" already exists for another user. Email field will be left blank."]) := by
  unfold ExcelUserImporter.emailBranch
  rw [hemail]
  simp only [isEmpty_false_of_ne_nil hne, Bool.false_eq_true, if_false]
  by_cases hf : emailFormatOk (cleanStringU ev) = true
  · rcases hbad with hbad | hbad
    · rw [hf] at hbad; exact absurd hbad (by decide)
    · rw [if_pos hf, if_pos hbad]
      exact ⟨rfl, Or.inr rfl⟩
  · rw [if_neg hf]
    exact ⟨rfl, Or.inl rfl⟩

theorem parse_marital_status_ne_nil (value : Str) :
    parse_marital_status value ≠ [] := by
  unfold parse_marital_status
  simp only []
  repeat' split
  all_goals decide

theorem parse_gender_default (value : Str)
    (h : pyStrip (pyUpper value) ∉ [str "M", str "MALE", str "BOY", str "F",
      str "FEMALE", str "GIRL", str "WOMAN", str "M/F"]) :
    parse_gender value = str "OTHER" := by
  unfold parse_gender
  simp only [List.mem_cons, List.not_mem_nil, or_false, not_or] at h
  obtain ⟨h1, h2, h3, h4, h5, h6, h7, h8⟩ := h
  rw [if_neg (by tauto), if_neg (by tauto), if_neg h8]

theorem parse_marital_default (value : Str)
    (h : pyStrip (pyUpper value) ∉ [str "SINGLE", str "S", str "A",
      str "MARRIED", str "M", str "DIVORCED", str "D", str "WIDOWED",
      str "W", str "SEPARATED"]) :
    parse_marital_status value = str "SINGLE" := by
  unfold parse_marital_status
  simp only [List.mem_cons, List.not_mem_nil, or_false, not_or] at h
  obtain ⟨h1, h2, h3, h4, h5, h6, h7, h8, h9, h10⟩ := h
  rw [if_neg (by tauto), if_neg (by tauto), if_neg (by tauto),
    if_neg (by tauto), if_neg h10]

theorem maritalBranch_no_warning (row : Row) (m : List (Str × Str)) :
    (ExcelUserImporter.maritalBranch row m).2 = [] := by
  unfold ExcelUserImporter.maritalBranch
  cases hg : getValue row m (str "Marital Status") none with
  | none => rfl
  | some r0 =>
    simp only []
    by_cases he : (cleanStringU r0).isEmpty = true
    · rw [if_pos he]
    · rw [if_neg he,
        if_neg (by
          rw [isEmpty_false_of_ne_nil (parse_marital_status_ne_nil (cleanStringU r0))]
          decide)]

/-- C8 counterexample: in the member variant, a row with an invalid-format
email and otherwise valid fields is recorded as success with the warning,
but the directory record keeps its previously stored email — it does not
end up with no email set, contrary to the claim. -/
theorem C8_counterexample :
    ∃ r db2, MemberExcelImporter.process_member_row testPrims dbMemEmail
        rowBadEmail mStaffEmail = (.ok r, db2) ∧
      r.status = str "success" ∧
      (str "Invalid email format: \"bad-email\". Skipping email update.") ∈
        r.warnings ∧
      db2.users.map UserRec.email = [some (str "old@x.com")] := by
  refine ⟨_, _, rfl, ?_, ?_, ?_⟩ <;> decide

set_option maxHeartbeats 1000000 in
/-- C8 (amended): for a row whose email value has an invalid format or
collides with an existing record email, and whose other fields are valid,
the row still yields a non-Failed (success) outcome with the corresponding
warning recorded, and the email from the row is never applied: the
full-user variant creates the record with no email set; the member variant
writes the record back with the email the directory already stored for it
(unchanged), rather than ending with no email. -/
theorem C8_email_never_applied (pr : Prims) (adminEmail : Str) (db : DB)
    (row : Row) (m : List (Str × Str)) (sv nv ev : Str) (u0 : UserRec) :
    (getValue row m (str "Staff #") none = some sv →
     cleanStringM sv ≠ [] →
     row.lookupErr = none →
     db.users.find? (fun u => u.staff_id == cleanStringM sv) = some u0 →
     db.members.any (fun mr => mr.staff_id == cleanStringM sv) = false →
     row.saveErr = none →
     row.createErr = none →
     MemberExcelImporter.emailOf row m ≠ [] →
     (emailFormatOk (MemberExcelImporter.emailOf row m) = false ∨
      db.users.any (fun u => u.email == some (MemberExcelImporter.emailOf row m) &&
        u.staff_id != u0.staff_id) = true) →
     ∃ r db2,
       MemberExcelImporter.process_member_row pr db row m = (.ok r, db2) ∧
       r.status = str "success" ∧
       (∃ w, w ∈ r.warnings ∧
         (w = str "Invalid email format: \"" ++ MemberExcelImporter.emailOf row m ++
            str "\". Skipping email update." ∨
          w = str "Email \"" ++ MemberExcelImporter.emailOf row m ++
            str "\" already exists for another user. Skipping email update.")) ∧
       db2.users.map UserRec.email =
         db.users.map (fun v =>
           if v.staff_id == u0.staff_id then u0.email else v.email)) ∧
    (getValue row m (str "Staff #") none = some sv →
     cleanStringU sv ≠ [] →
     row.lookupErr = none →
     db.users.any (fun u => u.staff_id == cleanStringU sv) = false →
     getValue row m (str "Name") none = some nv →
     cleanStringU nv ≠ [] →
     row.createErr = none →
     getValue row m (str "Email") none = some ev →
     cleanStringU ev ≠ [] →
     (emailFormatOk (cleanStringU ev) = false ∨
      db.users.any (fun u => u.email == some (cleanStringU ev)) = true) →
     ∃ r db2,
       ExcelUserImporter.process_row_exact_headers pr adminEmail db row m =
         (.ok r, db2) ∧
       r.status = str "success" ∧
       (∃ w, w ∈ r.warnings ∧
         (w = str "Invalid email format: \"" ++ cleanStringU ev ++
            str "\". Email field will be left blank." ∨
          w = str "Email \"" ++ cleanStringU ev ++
            str "\" already exists for another user. Email field will be left blank.")) ∧
       db2.users.map UserRec.email = db.users.map UserRec.email ++ [none] ∧
       db2.users.map UserRec.staff_id =
         db.users.map UserRec.staff_id ++ [cleanStringU sv]) := by
  constructor
  · intro h1 h2 h3 h4 h5 h6 h7 h8 h9
    have hkey := isEmpty_false_of_ne_nil h2
    have husers : ((MemberExcelImporter.divisionBranch
        ((MemberExcelImporter.stationBranch db (MemberExcelImporter.stationNameOf row m)).2.2) row m
        (MemberExcelImporter.divisionNameOf row m)).2.2).users = db.users := by
      rw [memberDivisionBranch_users, memberStationBranch_users]
    have hbad2 : emailFormatOk (MemberExcelImporter.emailOf row m) = false ∨
        (((MemberExcelImporter.divisionBranch
          ((MemberExcelImporter.stationBranch db (MemberExcelImporter.stationNameOf row m)).2.2) row m
          (MemberExcelImporter.divisionNameOf row m)).2.2).users.any (fun u =>
            u.email == some (MemberExcelImporter.emailOf row m) &&
            u.staff_id != (MemberExcelImporter.divisionUpdate
              (MemberExcelImporter.stationUpdate u0
                (MemberExcelImporter.stationBranch db (MemberExcelImporter.stationNameOf row m)).1)
              (MemberExcelImporter.divisionBranch
                ((MemberExcelImporter.stationBranch db (MemberExcelImporter.stationNameOf row m)).2.2)
                row m (MemberExcelImporter.divisionNameOf row m)).1).staff_id)) = true := by
      rcases h9 with h | h
      · exact Or.inl h
      · right
        rw [husers]
        simp only [divisionUpdate_staff, stationUpdate_staff]
        exact h
    obtain ⟨hd1, hd2⟩ := memberEmailBranch_drops _ _ _ h8 hbad2
    simp only [MemberExcelImporter.process_member_row, h1, h3, h4, h5, h6, h7,
      hkey, Bool.false_eq_true, if_false]
    refine ⟨_, _, rfl, rfl, ?_, ?_⟩
    · rcases hd2 with hd2 | hd2
      · refine ⟨_, ?_, Or.inl rfl⟩
        rw [hd2]
        simp [List.mem_append]
      · refine ⟨_, ?_, Or.inr rfl⟩
        rw [hd2]
        simp [List.mem_append]
    · show ((MemberExcelImporter.saveUser _ u0.staff_id _).users).map UserRec.email = _
      unfold MemberExcelImporter.saveUser
      simp only []
      rw [husers, List.map_map]
      simp only [hd1]
      apply List.map_congr_left
      intro v hv
      simp only [Function.comp_apply]
      rw [apply_ite UserRec.email, divisionUpdate_email, stationUpdate_email]
  · intro h1 h2 h3 h4 h5 h6 h7 h8 h9 h10
    have hkey := isEmpty_false_of_ne_nil h2
    have hnkey := isEmpty_false_of_ne_nil h6
    obtain ⟨hd1, hd2⟩ := userEmailBranch_drops db row m ev h8 h9 h10
    simp only [ExcelUserImporter.process_row_exact_headers, h1, h3, h4, h5, h7,
      hkey, hnkey, Bool.false_eq_true, if_false]
    refine ⟨_, _, rfl, rfl, ?_, ?_, ?_⟩
    · rcases hd2 with hd2 | hd2
      · refine ⟨_, ?_, Or.inl rfl⟩
        rw [hd2]
        simp [List.mem_append]
      · refine ⟨_, ?_, Or.inr rfl⟩
        rw [hd2]
        simp [List.mem_append]
    · show List.map UserRec.email (_ ++ [_]) = _
      rw [List.map_append, userDivisionBranch_users, userStationBranch_users]
      simp [hd1]
    · show List.map UserRec.staff_id (_ ++ [_]) = _
      rw [List.map_append, userDivisionBranch_users, userStationBranch_users]
      simp

/-- Witness for C8: the member variant on a row updating S1 with a bad
email, and the full-user variant on a row creating S7 with a bad email. -/
theorem C8_witness :
    (∃ r db2, MemberExcelImporter.process_member_row testPrims dbMemEmail
        rowBadEmail mStaffEmail = (.ok r, db2) ∧
      r.status = str "success" ∧
      (∃ w, w ∈ r.warnings ∧
        (w = str "Invalid email format: \"bad-email\". Skipping email update." ∨
         w = str "Email \"bad-email\" already exists for another user. Skipping email update.")) ∧
      db2.users.map UserRec.email =
        dbMemEmail.users.map (fun v =>
          if v.staff_id == str "S1" then some (str "old@x.com") else v.email)) ∧
    (∃ r db2, ExcelUserImporter.process_row_exact_headers testPrims (str "boss")
        dbEmpty rowBadEmailU m3 = (.ok r, db2) ∧
      r.status = str "success" ∧
      (∃ w, w ∈ r.warnings ∧
        (w = str "Invalid email format: \"bad-email\". Email field will be left blank." ∨
         w = str "Email \"bad-email\" already exists for another user. Email field will be left blank.")) ∧
      db2.users.map UserRec.email = dbEmpty.users.map UserRec.email ++ [none] ∧
      db2.users.map UserRec.staff_id =
        dbEmpty.users.map UserRec.staff_id ++ [str "S7"]) :=
  ⟨(C8_email_never_applied testPrims (str "boss") dbMemEmail rowBadEmail
      mStaffEmail (str "S1") (str "") (str "")
      { staff_id := str "S1", full_name := str "Kofi",
        email := some (str "old@x.com") }).1
     (by decide) (by decide) rfl (by decide) (by decide) rfl rfl (by decide)
     (Or.inl (by decide)),
   (C8_email_never_applied testPrims (str "boss") dbEmpty rowBadEmailU m3
      (str "S7") (str "Adjoa") (str "bad-email")
      { staff_id := str "", full_name := str "" }).2
     (by decide) (by decide) rfl (by decide) (by decide) (by decide) rfl
     (by decide) (by decide) (Or.inl (by decide))⟩

theorem genderValue_some (row : Row) (m : List (Str × Str)) (xv : Str)
    (h : getValue row m (str "Sex") none = some xv)
    (hne : cleanStringU xv ≠ []) :
    ExcelUserImporter.genderValue row m =
      some (parse_gender (cleanStringU xv)) := by
  unfold ExcelUserImporter.genderValue
  rw [h]
  simp only [isEmpty_false_of_ne_nil hne, Bool.false_eq_true, if_false]

theorem maritalValue_some (row : Row) (m : List (Str × Str)) (mv : Str)
    (h : getValue row m (str "Marital Status") none = some mv)
    (hne : cleanStringU mv ≠ []) :
    (ExcelUserImporter.maritalBranch row m).1 =
      some (parse_marital_status (cleanStringU mv)) := by
  unfold ExcelUserImporter.maritalBranch
  rw [h]
  simp only [isEmpty_false_of_ne_nil hne, Bool.false_eq_true, if_false,
    isEmpty_false_of_ne_nil (parse_marital_status_ne_nil (cleanStringU mv))]

/-- C9 counterexample: a row carrying an unrecognized Sex (X) and an
unrecognized Marital Status (Z) succeeds with the values mapped to the
defaults, but the only warning on the outcome is the unconditional
default-role warning — in particular the invalid-marital-status warning
the claim promises is not recorded. -/
theorem C9_counterexample :
    ∃ r db2, ExcelUserImporter.process_row_exact_headers testPrims (str "boss")
        dbEmpty rowUnrecognized mSexMarital = (.ok r, db2) ∧
      r.status = str "success" ∧
      r.warnings =
        [str "Role not provided, defaulting to STAFF. Please review and update if necessary."] ∧
      (str "Invalid marital status: \"Z\". Using default (SINGLE).") ∉ r.warnings ∧
      db2.users.map UserRec.gender = [some (str "OTHER")] ∧
      db2.users.map UserRec.marital_status = [some (str "SINGLE")] := by
  refine ⟨_, _, rfl, ?_, ?_, ?_, ?_, ?_⟩ <;> decide

set_option maxHeartbeats 1000000 in
/-- C9 (amended): an unrecognized gender value is mapped to the default
OTHER and an unrecognized marital-status value to the default SINGLE on the
created record, but no warning is recorded for either mapping: the gender
path carries no warning code, and the invalid-marital-status warning branch
is unreachable because the parser always returns a non-empty default. -/
theorem C9_defaults_without_warning (pr : Prims) (adminEmail : Str) (db : DB)
    (row : Row) (m : List (Str × Str)) (value sv nv xv mv : Str) :
    (pyStrip (pyUpper value) ∉ [str "M", str "MALE", str "BOY", str "F",
        str "FEMALE", str "GIRL", str "WOMAN", str "M/F"] →
      parse_gender value = str "OTHER") ∧
    (pyStrip (pyUpper value) ∉ [str "SINGLE", str "S", str "A", str "MARRIED",
        str "M", str "DIVORCED", str "D", str "WIDOWED", str "W",
        str "SEPARATED"] →
      parse_marital_status value = str "SINGLE") ∧
    parse_marital_status value ≠ [] ∧
    (ExcelUserImporter.maritalBranch row m).2 = [] ∧
    (getValue row m (str "Staff #") none = some sv →
     cleanStringU sv ≠ [] →
     row.lookupErr = none →
     db.users.any (fun u => u.staff_id == cleanStringU sv) = false →
     getValue row m (str "Name") none = some nv →
     cleanStringU nv ≠ [] →
     row.createErr = none →
     getValue row m (str "Sex") none = some xv →
     cleanStringU xv ≠ [] →
     getValue row m (str "Marital Status") none = some mv →
     cleanStringU mv ≠ [] →
     ∃ r db2,
       ExcelUserImporter.process_row_exact_headers pr adminEmail db row m =
         (.ok r, db2) ∧
       r.status = str "success" ∧
       db2.users.map UserRec.gender =
         db.users.map UserRec.gender ++
           [some (parse_gender (cleanStringU xv))] ∧
       db2.users.map UserRec.marital_status =
         db.users.map UserRec.marital_status ++
           [some (parse_marital_status (cleanStringU mv))]) := by
  refine ⟨parse_gender_default value, parse_marital_default value,
    parse_marital_status_ne_nil value, maritalBranch_no_warning row m, ?_⟩
  intro h1 h2 h3 h4 h5 h6 h7 h8 h9 h10 h11
  have hkey := isEmpty_false_of_ne_nil h2
  have hnkey := isEmpty_false_of_ne_nil h6
  simp only [ExcelUserImporter.process_row_exact_headers, h1, h3, h4, h5, h7,
    hkey, hnkey, Bool.false_eq_true, if_false]
  refine ⟨_, _, rfl, rfl, ?_, ?_⟩
  · show List.map UserRec.gender (_ ++ [_]) = _
    rw [List.map_append, userDivisionBranch_users, userStationBranch_users]
    simp [genderValue_some row m xv h8 h9]
  · show List.map UserRec.marital_status (_ ++ [_]) = _
    rw [List.map_append, userDivisionBranch_users, userStationBranch_users]
    simp [maritalValue_some row m mv h10 h11]

/-- Witness for C9: the unrecognized-values row, with the parser-level
facts at the concrete values X and Z. -/
theorem C9_witness :
    parse_gender (str "X") = str "OTHER" ∧
    parse_marital_status (str "Z") = str "SINGLE" ∧
    (ExcelUserImporter.maritalBranch rowUnrecognized mSexMarital).2 = [] ∧
    (∃ r db2, ExcelUserImporter.process_row_exact_headers testPrims (str "boss")
        dbEmpty rowUnrecognized mSexMarital = (.ok r, db2) ∧
      r.status = str "success" ∧
      db2.users.map UserRec.gender =
        dbEmpty.users.map UserRec.gender ++ [some (str "OTHER")] ∧
      db2.users.map UserRec.marital_status =
        dbEmpty.users.map UserRec.marital_status ++ [some (str "SINGLE")]) :=
  ⟨(C9_defaults_without_warning testPrims (str "boss") dbEmpty rowUnrecognized
      mSexMarital (str "X") (str "S9") (str "Ama") (str "X") (str "Z")).1
     (by decide),
   (C9_defaults_without_warning testPrims (str "boss") dbEmpty rowUnrecognized
      mSexMarital (str "Z") (str "S9") (str "Ama") (str "X") (str "Z")).2.1
     (by decide),
   (C9_defaults_without_warning testPrims (str "boss") dbEmpty rowUnrecognized
      mSexMarital (str "Z") (str "S9") (str "Ama") (str "X") (str "Z")).2.2.2.1,
   (C9_defaults_without_warning testPrims (str "boss") dbEmpty rowUnrecognized
      mSexMarital (str "Z") (str "S9") (str "Ama") (str "X") (str "Z")).2.2.2.2
     (by decide) (by decide) rfl (by decide) (by decide) (by decide) rfl
     (by decide) (by decide) (by decide) (by decide)⟩

/-- A two-row file: S1 (already a user) and S2 (new), for the re-import
runs. -/
def fileC4 : ExcelFile :=
  { headers := [str "Staff #", str "Name"],
    rows := [mkRow2 (some "S1") (some "Kofi"), mkRow2 (some "S2") (some "Ama")] }

/-- A directory that already holds user S1 and no members. -/
def dbC4 : DB :=
  { users := [{ staff_id := str "S1", full_name := str "Kofi" }] }

/-- First full-user run of `fileC4` against `dbC4`. -/
def userRunC4A : ImportReport × DB :=
  match ExcelUserImporter.import_users testPrims fileC4 (str "boss") dbC4 with
  | .ok p => p | .error _ => (mkReport 0 [] {}, {})

/-- Second full-user run of `fileC4`, against the store the first run
left behind. -/
def userRunC4B : ImportReport × DB :=
  match ExcelUserImporter.import_users testPrims fileC4 (str "boss") userRunC4A.2 with
  | .ok p => p | .error _ => (mkReport 0 [] {}, {})

/-- First member run of `fileC4` against `dbC4`. -/
def memberRunC4A : ImportReport × DB :=
  match MemberExcelImporter.import_members testPrims fileC4 (str "boss") dbC4 with
  | .ok p => p | .error _ => (mkReport 0 [] {}, {})

/-- Second member run of `fileC4`, against the store the first run left
behind. -/
def memberRunC4B : ImportReport × DB :=
  match MemberExcelImporter.import_members testPrims fileC4 (str "boss") memberRunC4A.2 with
  | .ok p => p | .error _ => (mkReport 0 [] {}, {})


/-- A store predicate preserved by every row step holds at the end of the
loop. -/
theorem runRows_final_pres (proc : DB → Row → Except Str RowResult × DB)
    (P : DB → Prop) (hmono : ∀ d r0, P d → P ((proc d r0).2)) :
    ∀ (rows : List Row) (idx : Nat) (db : DB), P db →
      P ((runRows proc idx db rows).2) := by
  intro rows
  induction rows with
  | nil => intro idx db h; exact h
  | cons r rs ih =>
    intro idx db h
    exact ih (idx + 1) ((proc db r).2) (hmono db r h)

/-- Every trace entry is the result of the row procedure at some
intermediate store, and every step-preserved predicate holding right after
that row holds at the final store. -/
theorem runRows_entry_final (proc : DB → Row → Except Str RowResult × DB) :
    ∀ (rows : List Row) (idx : Nat) (db : DB) (n : Nat) (row : Row)
      (res : Except Str RowResult),
    (n, row, res) ∈ (runRows proc idx db rows).1 →
    ∃ dbx, res = (proc dbx row).1 ∧
      ∀ P : DB → Prop, (∀ d r0, P d → P ((proc d r0).2)) →
        P ((proc dbx row).2) → P ((runRows proc idx db rows).2) := by
  intro rows
  induction rows with
  | nil => intro idx db n row res h; simp [runRows] at h
  | cons r rs ih =>
    intro idx db n row res h
    simp only [runRows, List.mem_cons] at h
    rcases h with h | h
    · injection h with h1 h23
      injection h23 with h2 h3
      subst h2
      refine ⟨db, h3, ?_⟩
      intro P hmono hP
      exact runRows_final_pres proc P hmono rs (idx + 1) ((proc db row).2) hP
    · rcases ih (idx + 1) ((proc db r).2) n row res h with ⟨dbx, h1, h2⟩
      exact ⟨dbx, h1, fun P hmono hP => h2 P hmono hP⟩

/-- If a step-preserved predicate holds at the start of the loop, every
trace entry is the result of the row procedure at a store satisfying it. -/
theorem runRows_entry_pre (proc : DB → Row → Except Str RowResult × DB)
    (P : DB → Prop) (hmono : ∀ d r0, P d → P ((proc d r0).2)) :
    ∀ (rows : List Row) (idx : Nat) (db : DB), P db →
    ∀ (n : Nat) (row : Row) (res : Except Str RowResult),
    (n, row, res) ∈ (runRows proc idx db rows).1 →
    ∃ dbx, P dbx ∧ res = (proc dbx row).1 := by
  intro rows
  induction rows with
  | nil => intro idx db hP n row res h; simp [runRows] at h
  | cons r rs ih =>
    intro idx db hP n row res h
    simp only [runRows, List.mem_cons] at h
    rcases h with h | h
    · injection h with h1 h23
      injection h23 with h2 h3
      subst h2
      exact ⟨db, hP, h3⟩
    · exact ih (idx + 1) ((proc db r).2) (hmono db r hP) n row res h

/-- Traces of the same rows from the same start index agree on keys and
rows regardless of the starting store. -/
theorem runRows_shape (proc : DB → Row → Except Str RowResult × DB) :
    ∀ (rows : List Row) (idx : Nat) (dbA dbB : DB) (n : Nat) (row : Row)
      (res : Except Str RowResult),
    (n, row, res) ∈ (runRows proc idx dbA rows).1 →
    ∃ tres, (n, row, tres) ∈ (runRows proc idx dbB rows).1 := by
  intro rows
  induction rows with
  | nil => intro idx dbA dbB n row res h; simp [runRows] at h
  | cons r rs ih =>
    intro idx dbA dbB n row res h
    simp only [runRows, List.mem_cons] at h
    rcases h with h | h
    · injection h with h1 h23
      injection h23 with h2 h3
      subst h1; subst h2
      exact ⟨(proc dbB row).1, List.mem_cons_self _ _⟩
    · rcases ih (idx + 1) ((proc dbA r).2) ((proc dbB r).2) n row res h with ⟨tres, ht⟩
      exact ⟨tres, List.mem_cons_of_mem _ ht⟩


/-- Converse direction of the emptiness test. -/
theorem ne_nil_of_not_isEmpty {l : Str} (h : ¬ (l.isEmpty = true)) : l ≠ [] := by
  intro he
  rw [he] at h
  exact h rfl

/-- The duplicate check of `_process_row_exact_headers`
(utils/smart_importer.py lines 190-195): a staff number already present in
the store short-circuits the row to the skipped dictionary, store
untouched. -/
theorem user_reimport_skips (pr : Prims) (a : Str) (db : DB) (row : Row)
    (m : List (Str × Str)) (staffRaw k : Str)
    (hget : getValue row m (str "Staff #") none = some staffRaw)
    (hclean : cleanStringU staffRaw = k) (hne : k ≠ [])
    (hlook : row.lookupErr = none)
    (hany : db.users.any (fun u => u.staff_id == k) = true) :
    ExcelUserImporter.process_row_exact_headers pr a db row m =
      (.ok { status := str "skipped",
             reason := str "Staff # \"" ++ k ++
               str "\" already exists in system" }, db) := by
  simp only [ExcelUserImporter.process_row_exact_headers, hget, hclean, hlook,
    isEmpty_false_of_ne_nil hne, Bool.false_eq_true, if_false, hany, if_true]

/-- A staff number present in the user store stays present through any
full-user row step. -/
theorem user_users_any_mono (pr : Prims) (a : Str) (db : DB) (row : Row)
    (m : List (Str × Str)) (k : Str)
    (h : db.users.any (fun u => u.staff_id == k) = true) :
    ((ExcelUserImporter.process_row_exact_headers pr a db row m).2).users.any
      (fun u => u.staff_id == k) = true := by
  unfold ExcelUserImporter.process_row_exact_headers
  simp only []
  repeat' split
  all_goals simp only []
  all_goals try exact h
  · rw [userDivisionBranch_users, userStationBranch_users]
    exact h
  · rw [List.any_append, userDivisionBranch_users, userStationBranch_users, h]
    rfl




set_option maxHeartbeats 1000000 in
/-- What a successful full-user row guarantees: the staff cell was
present and cleaned to the recorded non-empty staff number, the duplicate
check ran, and the output store now carries that staff number. -/
theorem user_success_facts (pr : Prims) (a : Str) (db : DB) (row : Row)
    (m : List (Str × Str)) (r : RowResult) (db2 : DB)
    (h : ExcelUserImporter.process_row_exact_headers pr a db row m = (.ok r, db2))
    (hs : r.status = str "success") :
    ∃ staffRaw, getValue row m (str "Staff #") none = some staffRaw ∧
      cleanStringU staffRaw = r.staff_id ∧ r.staff_id ≠ [] ∧
      row.lookupErr = none ∧
      db2.users.any (fun u => u.staff_id == r.staff_id) = true := by
  unfold ExcelUserImporter.process_row_exact_headers at h
  simp only [] at h
  cases hget : getValue row m (str "Staff #") none with
  | none =>
    rw [hget] at h
    simp only [] at h
    injection h with h1 h2
    injection h1 with hr
    rw [← hr] at hs
    simp only [] at hs
    exact absurd hs (by decide)
  | some s1 =>
    rw [hget] at h
    simp only [] at h
    by_cases hE : (cleanStringU s1).isEmpty = true
    · rw [if_pos hE] at h
      injection h with h1 h2
      injection h1 with hr
      rw [← hr] at hs
      simp only [] at hs
      exact absurd hs (by decide)
    · rw [if_neg hE] at h
      cases hlook : row.lookupErr with
      | some e =>
        rw [hlook] at h
        simp only [] at h
        injection h with h1 h2
        exact Except.noConfusion h1
      | none =>
        rw [hlook] at h
        simp only [] at h
        by_cases hany : db.users.any (fun u => u.staff_id == cleanStringU s1) = true
        · rw [if_pos hany] at h
          injection h with h1 h2
          injection h1 with hr
          rw [← hr] at hs
          simp only [] at hs
          exact absurd hs (by decide)
        · rw [if_neg hany] at h
          cases hname : getValue row m (str "Name") none with
          | none =>
            rw [hname] at h
            simp only [] at h
            injection h with h1 h2
            injection h1 with hr
            rw [← hr] at hs
            simp only [] at hs
            exact absurd hs (by decide)
          | some n1 =>
            rw [hname] at h
            simp only [] at h
            by_cases hEn : (cleanStringU n1).isEmpty = true
            · rw [if_pos hEn] at h
              injection h with h1 h2
              injection h1 with hr
              rw [← hr] at hs
              simp only [] at hs
              exact absurd hs (by decide)
            · rw [if_neg hEn] at h
              cases hcreate : row.createErr with
              | some e =>
                rw [hcreate] at h
                simp only [] at h
                injection h with h1 h2
                injection h1 with hr
                rw [← hr] at hs
                simp only [] at hs
                exact absurd hs (by decide)
              | none =>
                rw [hcreate] at h
                simp only [] at h
                injection h with h1 h2
                injection h1 with hr
                refine ⟨s1, rfl, ?_, ?_, rfl, ?_⟩
                · rw [← hr]
                · rw [← hr]
                  exact ne_nil_of_not_isEmpty hE
                · rw [← h2, ← hr]
                  simp [List.any_append]


/-- The member email branch never touches the staff number of the
threaded record. -/
theorem memberEmailBranch_staff (db : DB) (u2 : UserRec) (e : Str) :
    ((MemberExcelImporter.emailBranch db u2 e).1).staff_id = u2.staff_id := by
  unfold MemberExcelImporter.emailBranch
  repeat' split
  all_goals rfl

/-- `user.save()` replaces records in place, so a staff number present
before the save is present after it. -/
theorem saveUser_any_staff (d : DB) (key k : Str) (u : UserRec)
    (hu : u.staff_id = key)
    (h : d.users.any (fun v => v.staff_id == k) = true) :
    (MemberExcelImporter.saveUser d key u).users.any
      (fun v => v.staff_id == k) = true := by
  unfold MemberExcelImporter.saveUser
  simp only [List.any_map]
  rcases List.any_eq_true.mp h with ⟨v, hv, hpv⟩
  refine List.any_eq_true.mpr ⟨v, hv, ?_⟩
  simp only [Function.comp_apply]
  by_cases hc : (v.staff_id == key) = true
  · rw [if_pos hc]
    rw [hu, ← eq_of_beq hc]
    exact hpv
  · rw [if_neg hc]
    exact hpv

/-- The already-a-member check of `_process_member_row`
(services/import_service.py lines 304-310): a staff number whose user is
found and that already has a member record short-circuits the row to the
skipped dictionary, store untouched. -/
theorem member_reimport_skips (pr : Prims) (db : DB) (row : Row)
    (m : List (Str × Str)) (staffRaw k : Str) (u0 : UserRec)
    (hget : getValue row m (str "Staff #") none = some staffRaw)
    (hclean : cleanStringM staffRaw = k) (hne : k ≠ [])
    (hlook : row.lookupErr = none)
    (hfind : db.users.find? (fun u => u.staff_id == k) = some u0)
    (hmem : db.members.any (fun mr => mr.staff_id == k) = true) :
    MemberExcelImporter.process_member_row pr db row m =
      (.ok { status := str "skipped",
             reason := str "User " ++ u0.full_name ++ str " (" ++ k ++
               str ") is already a member" }, db) := by
  simp only [MemberExcelImporter.process_member_row, hget, hclean, hlook,
    isEmpty_false_of_ne_nil hne, Bool.false_eq_true, if_false, hfind, hmem,
    if_true]


set_option maxHeartbeats 1000000 in
/-- A staff number present in the user store stays present through any
member row step. -/
theorem member_users_any_mono (pr : Prims) (db : DB) (row : Row)
    (m : List (Str × Str)) (k : Str)
    (h : db.users.any (fun u => u.staff_id == k) = true) :
    ((MemberExcelImporter.process_member_row pr db row m).2).users.any
      (fun u => u.staff_id == k) = true := by
  unfold MemberExcelImporter.process_member_row
  simp only []
  cases hget : getValue row m (str "Staff #") none with
  | none => exact h
  | some s1 =>
    simp only []
    by_cases hE : (cleanStringM s1).isEmpty = true
    · rw [if_pos hE]; exact h
    · rw [if_neg hE]
      cases hlook : row.lookupErr with
      | some e => exact h
      | none =>
        simp only []
        cases hfind : db.users.find? (fun u => u.staff_id == cleanStringM s1) with
        | none => exact h
        | some user =>
          simp only []
          by_cases hmem :
              db.members.any (fun mr => mr.staff_id == cleanStringM s1) = true
          · rw [if_pos hmem]; exact h
          · rw [if_neg hmem]
            rcases hsb : MemberExcelImporter.stationBranch db
                (MemberExcelImporter.stationNameOf row m) with ⟨so, sc, db1⟩
            have hdb1 : db1.users = db.users := by
              have t := memberStationBranch_users db
                (MemberExcelImporter.stationNameOf row m)
              rw [hsb] at t
              exact t
            rcases hdbx : MemberExcelImporter.divisionBranch db1 row m
                (MemberExcelImporter.divisionNameOf row m) with ⟨dv, dc, db2x⟩
            have hdb2 : db2x.users = db.users := by
              have t := memberDivisionBranch_users db1 row m
                (MemberExcelImporter.divisionNameOf row m)
              rw [hdbx] at t
              rw [t, hdb1]
            simp only []
            cases hsave : row.saveErr with
            | some e =>
              simp only []
              rw [hdb2]
              exact h
            | none =>
              simp only []
              have hstep : (MemberExcelImporter.saveUser db2x user.staff_id
                  ((MemberExcelImporter.emailBranch db2x
                    (MemberExcelImporter.divisionUpdate
                      (MemberExcelImporter.stationUpdate user so) dv)
                    (MemberExcelImporter.emailOf row m)).1)).users.any
                  (fun u => u.staff_id == k) = true := by
                apply saveUser_any_staff
                · rw [memberEmailBranch_staff, divisionUpdate_staff,
                    stationUpdate_staff]
                · rw [hdb2]
                  exact h
              cases hcreate : row.createErr with
              | some e => exact hstep
              | none => exact hstep


set_option maxHeartbeats 1000000 in
/-- A staff number present in the member store stays present through any
member row step. -/
theorem member_members_any_mono (pr : Prims) (db : DB) (row : Row)
    (m : List (Str × Str)) (k : Str)
    (h : db.members.any (fun mr => mr.staff_id == k) = true) :
    ((MemberExcelImporter.process_member_row pr db row m).2).members.any
      (fun mr => mr.staff_id == k) = true := by
  unfold MemberExcelImporter.process_member_row
  simp only []
  cases hget : getValue row m (str "Staff #") none with
  | none => exact h
  | some s1 =>
    simp only []
    by_cases hE : (cleanStringM s1).isEmpty = true
    · rw [if_pos hE]; exact h
    · rw [if_neg hE]
      cases hlook : row.lookupErr with
      | some e => exact h
      | none =>
        simp only []
        cases hfind : db.users.find? (fun u => u.staff_id == cleanStringM s1) with
        | none => exact h
        | some user =>
          simp only []
          by_cases hmem :
              db.members.any (fun mr => mr.staff_id == cleanStringM s1) = true
          · rw [if_pos hmem]; exact h
          · rw [if_neg hmem]
            rcases hsb : MemberExcelImporter.stationBranch db
                (MemberExcelImporter.stationNameOf row m) with ⟨so, sc, db1⟩
            have hdb1 : db1.members = db.members := by
              have t := memberStationBranch_members db
                (MemberExcelImporter.stationNameOf row m)
              rw [hsb] at t
              exact t
            rcases hdbx : MemberExcelImporter.divisionBranch db1 row m
                (MemberExcelImporter.divisionNameOf row m) with ⟨dv, dc, db2x⟩
            have hdb2 : db2x.members = db.members := by
              have t := memberDivisionBranch_members db1 row m
                (MemberExcelImporter.divisionNameOf row m)
              rw [hdbx] at t
              rw [t, hdb1]
            simp only []
            cases hsave : row.saveErr with
            | some e =>
              simp only []
              rw [hdb2]
              exact h
            | none =>
              simp only []
              have hstep : (MemberExcelImporter.saveUser db2x user.staff_id
                  ((MemberExcelImporter.emailBranch db2x
                    (MemberExcelImporter.divisionUpdate
                      (MemberExcelImporter.stationUpdate user so) dv)
                    (MemberExcelImporter.emailOf row m)).1)).members.any
                  (fun mr => mr.staff_id == k) = true := by
                unfold MemberExcelImporter.saveUser
                simp only []
                rw [hdb2]
                exact h
              cases hcreate : row.createErr with
              | some e => exact hstep
              | none =>
                simp only [List.any_append]
                rw [hstep]
                rfl


set_option maxHeartbeats 1000000 in
/-- What a successful member row guarantees: the staff cell was present
and cleaned to the recorded non-empty staff number, the lookup ran, and
the output store carries that staff number both as a user and as a
member. -/
theorem member_success_facts (pr : Prims) (db : DB) (row : Row)
    (m : List (Str × Str)) (r : RowResult) (db2 : DB)
    (h : MemberExcelImporter.process_member_row pr db row m = (.ok r, db2))
    (hs : r.status = str "success") :
    ∃ staffRaw, getValue row m (str "Staff #") none = some staffRaw ∧
      cleanStringM staffRaw = r.staff_id ∧ r.staff_id ≠ [] ∧
      row.lookupErr = none ∧
      db2.users.any (fun u => u.staff_id == r.staff_id) = true ∧
      db2.members.any (fun mr => mr.staff_id == r.staff_id) = true := by
  unfold MemberExcelImporter.process_member_row at h
  simp only [] at h
  cases hget : getValue row m (str "Staff #") none with
  | none =>
    rw [hget] at h
    simp only [] at h
    injection h with h1 h2
    injection h1 with hr
    rw [← hr] at hs
    simp only [] at hs
    exact absurd hs (by decide)
  | some s1 =>
    rw [hget] at h
    simp only [] at h
    by_cases hE : (cleanStringM s1).isEmpty = true
    · rw [if_pos hE] at h
      injection h with h1 h2
      injection h1 with hr
      rw [← hr] at hs
      simp only [] at hs
      exact absurd hs (by decide)
    · rw [if_neg hE] at h
      cases hlook : row.lookupErr with
      | some e =>
        rw [hlook] at h
        simp only [] at h
        injection h with h1 h2
        exact Except.noConfusion h1
      | none =>
        rw [hlook] at h
        simp only [] at h
        cases hfind : db.users.find? (fun u => u.staff_id == cleanStringM s1) with
        | none =>
          rw [hfind] at h
          simp only [] at h
          injection h with h1 h2
          injection h1 with hr
          rw [← hr] at hs
          simp only [] at hs
          exact absurd hs (by decide)
        | some user =>
          rw [hfind] at h
          simp only [] at h
          by_cases hmem :
              db.members.any (fun mr => mr.staff_id == cleanStringM s1) = true
          · rw [if_pos hmem] at h
            injection h with h1 h2
            injection h1 with hr
            rw [← hr] at hs
            simp only [] at hs
            exact absurd hs (by decide)
          · rw [if_neg hmem] at h
            have hbeq0 : (user.staff_id == cleanStringM s1) = true := by
              have t := List.find?_some hfind
              exact t
            have hstaff0 : user.staff_id = cleanStringM s1 := eq_of_beq hbeq0
            rcases hsb : MemberExcelImporter.stationBranch db
                (MemberExcelImporter.stationNameOf row m) with ⟨so, sc, db1⟩
            rw [hsb] at h
            have hdb1 : db1.users = db.users := by
              have t := memberStationBranch_users db
                (MemberExcelImporter.stationNameOf row m)
              rw [hsb] at t
              exact t
            have hdb1m : db1.members = db.members := by
              have t := memberStationBranch_members db
                (MemberExcelImporter.stationNameOf row m)
              rw [hsb] at t
              exact t
            rcases hdbx : MemberExcelImporter.divisionBranch db1 row m
                (MemberExcelImporter.divisionNameOf row m) with ⟨dv, dc, db2x⟩
            rw [hdbx] at h
            have hdb2 : db2x.users = db.users := by
              have t := memberDivisionBranch_users db1 row m
                (MemberExcelImporter.divisionNameOf row m)
              rw [hdbx] at t
              rw [t, hdb1]
            have hdb2m : db2x.members = db.members := by
              have t := memberDivisionBranch_members db1 row m
                (MemberExcelImporter.divisionNameOf row m)
              rw [hdbx] at t
              rw [t, hdb1m]
            simp only [] at h
            cases hsave : row.saveErr with
            | some e =>
              rw [hsave] at h
              simp only [] at h
              injection h with h1 h2
              exact Except.noConfusion h1
            | none =>
              rw [hsave] at h
              simp only [] at h
              cases hcreate : row.createErr with
              | some e =>
                rw [hcreate] at h
                simp only [] at h
                injection h with h1 h2
                injection h1 with hr
                rw [← hr] at hs
                simp only [] at hs
                exact absurd hs (by decide)
              | none =>
                rw [hcreate] at h
                simp only [] at h
                injection h with h1 h2
                injection h1 with hr
                have hrs : r.staff_id = cleanStringM s1 := by
                  rw [← hr]
                  show ((MemberExcelImporter.emailBranch db2x
                    (MemberExcelImporter.divisionUpdate
                      (MemberExcelImporter.stationUpdate user so) dv)
                    (MemberExcelImporter.emailOf row m)).1).staff_id =
                      cleanStringM s1
                  rw [memberEmailBranch_staff, divisionUpdate_staff,
                    stationUpdate_staff, hstaff0]
                refine ⟨s1, rfl, hrs.symm, ?_, rfl, ?_, ?_⟩
                · rw [hrs]
                  exact ne_nil_of_not_isEmpty hE
                · rw [hrs, ← h2]
                  simp only []
                  apply saveUser_any_staff
                  · rw [memberEmailBranch_staff, divisionUpdate_staff,
                      stationUpdate_staff]
                  · rw [hdb2]
                    exact List.any_eq_true.mpr
                      ⟨user, List.mem_of_find?_eq_some hfind, hbeq0⟩
                · rw [hrs, ← h2]
                  simp only [List.any_append, Bool.or_eq_true]
                  refine Or.inr ?_
                  simp only [List.any_cons, List.any_nil, Bool.or_false]
                  unfold MemberExcelImporter.newMemberRec
                  simp only []
                  rw [memberEmailBranch_staff, divisionUpdate_staff,
                    stationUpdate_staff, hstaff0]
                  exact beq_self_eq_true (cleanStringM s1)


set_option maxHeartbeats 4000000 in
/-- C4: importing the same file twice is idempotent with respect to the
staff identifier: in both variants, every row that produced Created in the
first run produces Skipped in the second run, with the duplicate reason
(existing user in the full-user variant, existing member in the member
variant), and its row number never appears among the second run's Created
entries. -/
theorem C4_reimport_idempotent (pr : Prims) (file : ExcelFile)
    (adminEmail : Str) (db : DB) :
    (∀ rep1 db1 rep2 db2,
      ExcelUserImporter.import_users pr file adminEmail db = .ok (rep1, db1) →
      ExcelUserImporter.import_users pr file adminEmail db1 = .ok (rep2, db2) →
      ∀ c ∈ rep1.successful,
        (∃ s ∈ rep2.skippedRows, s.row = c.row ∧
          s.reason = str "Staff # \"" ++ c.staff_id ++
            str "\" already exists in system") ∧
        ∀ c2 ∈ rep2.successful, c2.row ≠ c.row) ∧
    (∀ rep1 db1 rep2 db2,
      MemberExcelImporter.import_members pr file adminEmail db = .ok (rep1, db1) →
      MemberExcelImporter.import_members pr file adminEmail db1 = .ok (rep2, db2) →
      ∀ c ∈ rep1.successful,
        (∃ s ∈ rep2.skippedRows, s.row = c.row ∧ ∃ nm,
          s.reason = str "User " ++ nm ++ str " (" ++ c.staff_id ++
            str ") is already a member") ∧
        ∀ c2 ∈ rep2.successful, c2.row ≠ c.row) := by
  constructor
  · intro rep1 db1 rep2 db2 h1 h2 c hc
    unfold ExcelUserImporter.import_users at h1 h2
    simp only [] at h1 h2
    by_cases hmiss : (List.filter
        (fun h0 => !hasHeader (headerMapping file.headers) h0)
        ExcelUserImporter.required_headers).isEmpty = true
    swap
    · rw [if_neg hmiss] at h1
      exact Except.noConfusion h1
    rw [if_pos hmiss] at h1 h2
    injection h1 with hp1
    injection hp1 with hrep1 hdb1
    injection h2 with hp2
    injection hp2 with hrep2 hdb2
    rw [← hrep1] at hc
    have hc2 : c ∈ (buckets ExcelUserImporter.mkCreated
        (headerMapping file.headers)
        (runRows (fun db0 row0 => ExcelUserImporter.process_row_exact_headers
          pr adminEmail db0 row0 (headerMapping file.headers))
          0 db file.rows).1).created := hc
    rcases buckets_created_origin _ _ _ c hc2 with ⟨n, row, r, htr1, hsucc, hcmk⟩
    rcases runRows_entry_final _ file.rows 0 db n row (.ok r) htr1 with
      ⟨dbx, hres, hprop⟩
    have hpair : ExcelUserImporter.process_row_exact_headers pr adminEmail dbx
        row (headerMapping file.headers) =
        (.ok r, (ExcelUserImporter.process_row_exact_headers pr adminEmail dbx
          row (headerMapping file.headers)).2) := by
      rw [hres]
    rcases user_success_facts pr adminEmail dbx row (headerMapping file.headers)
        r _ hpair hsucc with ⟨staffRaw, hget, hclean, hne, hlook, hafter⟩
    have hmono : ∀ d r0,
        (fun d0 => d0.users.any (fun u => u.staff_id == r.staff_id) = true) d →
        (fun d0 => d0.users.any (fun u => u.staff_id == r.staff_id) = true)
          ((ExcelUserImporter.process_row_exact_headers pr adminEmail d r0
            (headerMapping file.headers)).2) :=
      fun d r0 hp =>
        user_users_any_mono pr adminEmail d r0 (headerMapping file.headers)
          r.staff_id hp
    have hfinal := hprop _ hmono hafter
    rw [hdb1] at hfinal
    rcases runRows_shape _ file.rows 0 db db1 n row (.ok r) htr1 with ⟨res2, htr2⟩
    rcases runRows_entry_pre _ _ hmono file.rows 0 db1 hfinal n row res2 htr2 with
      ⟨dby, hPy, hres2⟩
    rw [user_reimport_skips pr adminEmail dby row (headerMapping file.headers)
      staffRaw r.staff_id hget hclean hne hlook hPy] at hres2
    simp only [] at hres2
    rw [hres2] at htr2
    rcases buckets_skipped_mem ExcelUserImporter.mkCreated
        (headerMapping file.headers) _ n row _ htr2 rfl with
      ⟨sEntry, hsmem, hsrow, hsreason⟩
    refine ⟨⟨sEntry, ?_, ?_, ?_⟩, ?_⟩
    · rw [← hrep2]
      exact hsmem
    · rw [hcmk]
      exact hsrow
    · rw [hcmk]
      exact hsreason
    · intro c2 hc2b
      rw [← hrep2] at hc2b
      have hc2c : c2 ∈ (buckets ExcelUserImporter.mkCreated
          (headerMapping file.headers)
          (runRows (fun db0 row0 => ExcelUserImporter.process_row_exact_headers
            pr adminEmail db0 row0 (headerMapping file.headers))
            0 db1 file.rows).1).created := hc2b
      rcases buckets_created_origin _ _ _ c2 hc2c with
        ⟨n2, row2, r2, htr2b, hsucc2, hc2mk⟩
      intro heq
      rw [hcmk] at heq
      have hn2 : n2 = n := by
        rw [hc2mk] at heq
        exact heq
      rw [hn2] at htr2b
      have hpairs := mem_eq_of_nodup_keys _
        (runRows_keys_nodup _ file.rows 0 db1) n _ _ htr2 htr2b
      injection hpairs with hrow2 hres3
      injection hres3 with hlit
      rw [← hlit] at hsucc2
      simp only [] at hsucc2
      exact absurd hsucc2 (by decide)
  · intro rep1 db1 rep2 db2 h1 h2 c hc
    unfold MemberExcelImporter.import_members at h1 h2
    simp only [] at h1 h2
    by_cases hmiss : (List.filter
        (fun h0 => !hasHeader (headerMapping file.headers) h0)
        MemberExcelImporter.REQUIRED_HEADERS).isEmpty = true
    swap
    · rw [if_neg hmiss] at h1
      exact Except.noConfusion h1
    rw [if_pos hmiss] at h1 h2
    injection h1 with hp1
    injection hp1 with hrep1 hdb1
    injection h2 with hp2
    injection hp2 with hrep2 hdb2
    rw [← hrep1] at hc
    have hc2 : c ∈ (buckets MemberExcelImporter.mkCreated
        (headerMapping file.headers)
        (runRows (fun db0 row0 => MemberExcelImporter.process_member_row
          pr db0 row0 (headerMapping file.headers))
          0 db file.rows).1).created := hc
    rcases buckets_created_origin _ _ _ c hc2 with ⟨n, row, r, htr1, hsucc, hcmk⟩
    rcases runRows_entry_final _ file.rows 0 db n row (.ok r) htr1 with
      ⟨dbx, hres, hprop⟩
    have hpair : MemberExcelImporter.process_member_row pr dbx
        row (headerMapping file.headers) =
        (.ok r, (MemberExcelImporter.process_member_row pr dbx
          row (headerMapping file.headers)).2) := by
      rw [hres]
    rcases member_success_facts pr dbx row (headerMapping file.headers)
        r _ hpair hsucc with ⟨staffRaw, hget, hclean, hne, hlook, hafterU, hafterM⟩
    have hmono : ∀ d r0,
        (fun d0 => d0.users.any (fun u => u.staff_id == r.staff_id) = true ∧
          d0.members.any (fun mr => mr.staff_id == r.staff_id) = true) d →
        (fun d0 => d0.users.any (fun u => u.staff_id == r.staff_id) = true ∧
          d0.members.any (fun mr => mr.staff_id == r.staff_id) = true)
          ((MemberExcelImporter.process_member_row pr d r0
            (headerMapping file.headers)).2) :=
      fun d r0 hp =>
        ⟨member_users_any_mono pr d r0 (headerMapping file.headers)
            r.staff_id hp.1,
         member_members_any_mono pr d r0 (headerMapping file.headers)
            r.staff_id hp.2⟩
    have hfinal := hprop _ hmono ⟨hafterU, hafterM⟩
    rw [hdb1] at hfinal
    rcases runRows_shape _ file.rows 0 db db1 n row (.ok r) htr1 with ⟨res2, htr2⟩
    rcases runRows_entry_pre _ _ hmono file.rows 0 db1 hfinal n row res2 htr2 with
      ⟨dby, hPy, hres2⟩
    rcases List.any_eq_true.mp hPy.1 with ⟨u, humem, hub⟩
    cases hfindy : dby.users.find? (fun v => v.staff_id == r.staff_id) with
    | none =>
      exact absurd hub (List.find?_eq_none.mp hfindy u humem)
    | some u0 =>
      rw [member_reimport_skips pr dby row (headerMapping file.headers)
        staffRaw r.staff_id u0 hget hclean hne hlook hfindy hPy.2] at hres2
      simp only [] at hres2
      rw [hres2] at htr2
      rcases buckets_skipped_mem MemberExcelImporter.mkCreated
          (headerMapping file.headers) _ n row _ htr2 rfl with
        ⟨sEntry, hsmem, hsrow, hsreason⟩
      refine ⟨⟨sEntry, ?_, ?_, u0.full_name, ?_⟩, ?_⟩
      · rw [← hrep2]
        exact hsmem
      · rw [hcmk]
        exact hsrow
      · rw [hcmk]
        exact hsreason
      · intro c2 hc2b
        rw [← hrep2] at hc2b
        have hc2c : c2 ∈ (buckets MemberExcelImporter.mkCreated
            (headerMapping file.headers)
            (runRows (fun db0 row0 => MemberExcelImporter.process_member_row
              pr db0 row0 (headerMapping file.headers))
              0 db1 file.rows).1).created := hc2b
        rcases buckets_created_origin _ _ _ c2 hc2c with
          ⟨n2, row2, r2, htr2b, hsucc2, hc2mk⟩
        intro heq
        rw [hcmk] at heq
        have hn2 : n2 = n := by
          rw [hc2mk] at heq
          exact heq
        rw [hn2] at htr2b
        have hpairs := mem_eq_of_nodup_keys _
          (runRows_keys_nodup _ file.rows 0 db1) n _ _ htr2 htr2b
        injection hpairs with hrow2 hres3
        injection hres3 with hlit
        rw [← hlit] at hsucc2
        simp only [] at hsucc2
        exact absurd hsucc2 (by decide)


/-- Witness for C4: the two-row file imported twice by each variant; the
row Created by the first run (row 3 / S2 for the full-user variant, row 2
/ S1 for the member variant) is Skipped with the duplicate reason by the
second run, which creates nothing at that row. -/
theorem C4_witness :
    ((∃ s ∈ userRunC4B.1.skippedRows, s.row = 3 ∧
        s.reason = str "Staff # \"" ++ str "S2" ++
          str "\" already exists in system") ∧
     (∀ c2 ∈ userRunC4B.1.successful, c2.row ≠ 3)) ∧
    ((∃ s ∈ memberRunC4B.1.skippedRows, s.row = 2 ∧ ∃ nm,
        s.reason = str "User " ++ nm ++ str " (" ++ str "S1" ++
          str ") is already a member") ∧
     (∀ c2 ∈ memberRunC4B.1.successful, c2.row ≠ 2)) :=
  ⟨(C4_reimport_idempotent testPrims fileC4 (str "boss") dbC4).1
      userRunC4A.1 userRunC4A.2 userRunC4B.1 userRunC4B.2 rfl rfl
      { row := 3, staff_id := str "S2", full_name := str "Ama",
        warnings := [str "Role not provided, defaulting to STAFF. Please review and update if necessary."] }
      (by decide),
   (C4_reimport_idempotent testPrims fileC4 (str "boss") dbC4).2
      memberRunC4A.1 memberRunC4A.2 memberRunC4B.1 memberRunC4B.2 rfl rfl
      { row := 2, staff_id := str "S1", full_name := str "Kofi",
        wallet_number := str "CHS12605",
        warnings := [str "Joined Date not provided. Using current date."] }
      (by decide)⟩
